import Mathlib

/-!
Verification development for the generic (non-libelf) ELF reading layer of
libdwarf (dwarf_elf_load_headers.c).  The C code is shallowly embedded:
the per-object state `dwarf_elf_object_access_internals_t` becomes the
structure `ElfState`, C functions that mutate the state become Lean
functions returning a status together with the updated state, and file
contents are lists of byte values (natural numbers below 256).
-/

namespace ElfLoad


/-! ### Status values and error codes

`DW_DLV_OK` / `DW_DLV_NO_ENTRY` / `DW_DLV_ERROR` together with the
out-parameter `*errcode` are folded into one inductive result type.
The numeric values of the `DW_DLE_*` codes are nominal; only their
distinctness matters here. -/

inductive DwRes where
  | ok
  | noEntry
  | error (code : Nat)
deriving DecidableEq, Repr, Inhabited

def DW_DLE_ALLOC_FAIL : Nat := 1

def DW_DLE_SECTION_SIZE_ERROR : Nat := 2

def DW_DLE_SECTION_SIZE_OR_OFFSET_LARGE : Nat := 3

def DW_DLE_SECTION_INDEX_BAD : Nat := 4

def DW_DLE_ELF_STRING_SECTION_MISSING : Nat := 5

def DW_DLE_SECTION_STRING_OFFSET_BAD : Nat := 6

def DW_DLE_ELF_SECTION_COUNT_MISMATCH : Nat := 7

def DW_DLE_ELF_SECTION_ERROR : Nat := 8

def DW_DLE_OFFSET_SIZE : Nat := 9

def DW_DLE_INTEGER_TOO_SMALL : Nat := 10

def DW_DLE_ELF_SECTION_GROUP_ERROR : Nat := 11

def DW_DLE_ELF_STRING_SECTION_ERROR : Nat := 12

def DW_DLE_ELF_SECTION_LINK_ERROR : Nat := 13

def DW_DLE_INTERNAL_NULL_POINTER : Nat := 14

def DW_DLE_SEEK_OFF_END : Nat := 15

def DW_DLE_READ_OFF_END : Nat := 16

def DW_DLE_BAD_TYPE_SIZE : Nat := 17

/-! ### ELF constants (dwarf_elf_defines.h / standard ELF ABI) -/

def SHT_NULL : Nat := 0

def SHT_RELA : Nat := 4

def SHT_NOBITS : Nat := 8

def SHT_REL : Nat := 9

def SHT_GROUP : Nat := 17

def SHF_GROUP : Nat := 0x200

def EM_MIPS : Nat := 8

def EM_SPARCV9 : Nat := 43

def DW_OBJECT_LSB : Nat := 1

def DW_OBJECT_MSB : Nat := 2

def DW_GROUPNUMBER_BASE : Nat := 1

def DW_GROUPNUMBER_DWO : Nat := 2

def DWARF_32BIT_SIZE : Nat := 4

/-! ### Byte-order primitives

`ASNAR(func,t,s)` places the byte array `s` into the integer `t` so that
`t` is the host-order value of the bytes when `func` is `memcpy`, and the
byte-swapped value when `func` is `_dwarf_memcpy_swap_bytes`.  `asnar le
bs` is the value of `bs` read little-endian when `le = true` and
big-endian otherwise, so `ASNAR(memcpy,t,s)` is `asnar hostle s` and the
swapped form is `asnar (!hostle) s`.  The function pointer
`ep->f_copy_word` is installed at object-open time to produce the
object-order value, i.e. `asnar objle s`. -/

def leVal : List Nat → Nat
  | [] => 0
  | b :: rest => b + 256 * leVal rest

def asnar (le : Bool) (bs : List Nat) : Nat :=
  if le then leVal bs else leVal bs.reverse

/-- Sign extension of a `w`-byte two's-complement value, as done by the
SIGN_EXTEND macro of dwarf_reading.h on relocation addends. -/
def signExtend (w : Nat) (v : Nat) : Int :=
  if v ≥ 2 ^ (8 * w - 1) then (v : Int) - 2 ^ (8 * w) else (v : Int)

/-! ### C-string helpers on section names

Section names are Lean strings.  `cstrncmpEq s q n` is `strncmp(s,q,n) ==
0`; every use in the embedded code passes `n` equal to the length of the
literal `q`, exactly as the C code does. -/

def cstrncmpEq (s q : String) (n : Nat) : Bool :=
  s.data.take n == q.data.take n

def string_endswith (n q : String) : Bool :=
  decide (q.data.length ≤ n.data.length) &&
    n.data.drop (n.data.length - q.data.length) == q.data

/-! ### The DWARF-section classifier (_dwarf_load_elf_section_is_dwarf)

The helper `_dwarf_ignorethissection` lives in dwarf_secname_ck.c, which
is not among the sources here; the classifier is therefore parameterized
by that predicate.  The branch bodies below mirror the source lines
136-170 exactly, including the fact that the `.rel.` branch (source line
151) stores TRUE into `*is_rela`. -/

structure DwarfSecFlags where
  isdwarf : Bool
  is_rela : Bool
  is_rel : Bool
deriving DecidableEq, Repr, Inhabited

def _dwarf_load_elf_section_is_dwarf (ignorethissection : String → Bool)
    (sname : String) : DwarfSecFlags :=
  if ignorethissection sname then ⟨false, false, false⟩
  else if cstrncmpEq sname ".rel" 4 then
    (if cstrncmpEq sname ".rela." 6 then ⟨true, true, false⟩
     else if cstrncmpEq sname ".rel." 5 then ⟨true, true, false⟩
     else ⟨false, false, false⟩)
  else if cstrncmpEq sname ".debug_" 7 then ⟨true, false, false⟩
  else if cstrncmpEq sname ".zdebug_" 8 then ⟨true, false, false⟩
  else if sname == ".eh_frame" then ⟨true, false, false⟩
  else if cstrncmpEq sname ".gdb_index" 10 then ⟨true, false, false⟩
  else ⟨false, false, false⟩

def is_empty_section (t : Nat) : Bool :=
  t == SHT_NOBITS || t == SHT_NULL

/-! ### Generic section headers, symbols and relocation records -/

/-- One relocation record in generic form (struct generic_rela). -/
structure GRela where
  gr_offset : Nat
  gr_info : Nat
  gr_addend : Int
  gr_sym : Nat
  gr_type : Nat
  gr_type2 : Nat
  gr_type3 : Nat
  gr_is_rela : Bool
deriving DecidableEq, Repr, Inhabited

/-- One symbol-table entry in generic form (struct generic_symentry). -/
structure GSym where
  gs_name : Nat
  gs_value : Nat
  gs_size : Nat
  gs_info : Nat
  gs_other : Nat
  gs_shndx : Nat
  gs_bind : Nat
  gs_type : Nat
deriving DecidableEq, Repr, Inhabited

/-- One section header in generic form (struct generic_shdr). -/
structure GShdr where
  gh_secnum : Nat
  gh_name : Nat
  gh_namestring : String
  gh_type : Nat
  gh_flags : Nat
  gh_addr : Nat
  gh_offset : Nat
  gh_size : Nat
  gh_link : Nat
  gh_info : Nat
  gh_entsize : Nat
  gh_reloc_target_secnum : Nat
  gh_is_dwarf : Bool
  gh_section_group_number : Nat
  gh_sht_group_array : Option (List Nat)
  gh_sht_group_array_count : Nat
  gh_rels : Option (List GRela)
  gh_relcount : Nat
deriving DecidableEq, Repr, Inhabited

/-- The generic ELF file header (struct generic_ehdr). -/
structure GEhdr where
  ge_ident : List Nat
  ge_type : Nat
  ge_machine : Nat
  ge_version : Nat
  ge_entry : Nat
  ge_phoff : Nat
  ge_shoff : Nat
  ge_flags : Nat
  ge_ehsize : Nat
  ge_phentsize : Nat
  ge_phnum : Nat
  ge_shentsize : Nat
  ge_shnum : Nat
  ge_shstrndx : Nat
deriving DecidableEq, Repr, Inhabited

/-- The per-object state (dwarf_elf_object_access_internals_t).  The file
behind `f_fd` is embedded as its byte contents `f_file`; `f_filesize` of
the C structure is `f_file.length`.  `f_hostle` records the build-time
host byte order (the WORDS_BIGENDIAN configure test), which selects the
plain-memcpy interpretation used by `ASNAR(memcpy,...)`. -/
structure ElfState where
  f_hostle : Bool
  f_endian : Nat
  f_machine : Nat
  f_offsetsize : Nat
  f_file : List Nat
  f_ehdr : Option GEhdr
  f_shdr : List GShdr
  f_loc_shdr_count : Nat
  f_elf_shstrings_data : List Nat
  f_elf_shstrings_length : Nat
  f_elf_shstrings_max : Nat
  f_symtab_sect_index : Nat
  f_symtab_sect_strings_sect_index : Nat
  f_symtab_sect_strings_max : Nat
  f_symtab_sect_strings : Option (List Nat)
  f_symtab : Option (List GSym)
  f_loc_symtab_count : Nat
  f_sg_next_group_number : Nat
  f_sht_group_type_section_count : Nat
  f_shf_group_flag_section_count : Nat
  f_dwo_group_section_count : Nat
deriving DecidableEq, Repr, Inhabited

/-- The object byte order is little-endian. -/
def objLE (ep : ElfState) : Bool := ep.f_endian == DW_OBJECT_LSB

/-- Object-order word assembly, the semantics of `ep->f_copy_word`. -/
def copyWord (ep : ElfState) (bs : List Nat) : Nat := asnar (objLE ep) bs

/-- The `f_filesize` field of the C state. -/
def fileSize (ep : ElfState) : Nat := ep.f_file.length

/-- Modelled from the spec: `RRMOA` (_dwarf_object_read_random of
dwarf_object_read_common.c, not among the sources here) reads `size`
bytes at `offset` from the file.  Per the spec's byte-reader contract,
"Every byte offset read is < section.len; every range (o, l) satisfies
o + l ≤ section.len with no wrap" and a read past the limit fails with
no partial state. -/
def RRMOA (file : List Nat) (offset size : Nat) : Except Nat (List Nat) :=
  if offset ≥ file.length then .error DW_DLE_SEEK_OFF_END
  else if offset + size > file.length then .error DW_DLE_READ_OFF_END
  else .ok ((file.drop offset).take size)

/-! ### Record sizes

Sizes of the packed on-disk ELF record layouts (dwarf_elfstructs.h).
validate_struct_sizes checks them against the system elf.h when that is
available; they are the standard ELF ABI sizes. -/

def sizeof_dw_elf32_ehdr : Nat := 52

def sizeof_dw_elf64_ehdr : Nat := 64

def sizeof_dw_elf32_sym : Nat := 16

def sizeof_dw_elf64_sym : Nat := 24

def sizeof_dw_elf32_rel : Nat := 8

def sizeof_dw_elf64_rel : Nat := 16

def sizeof_dw_elf32_rela : Nat := 12

def sizeof_dw_elf64_rela : Nat := 24

def sizeof_Dwarf_Unsigned : Nat := 8

/-- Extract the `i`-th record of `reclen` bytes from a raw byte list. -/
def recAt (bytes : List Nat) (reclen i : Nat) : List Nat :=
  (bytes.drop (reclen * i)).take reclen

/-! ### Symbol loading (dwarf_generic_elf_load_symbols32/64 and callers) -/

/-- Parse one 16-byte dw_elf32_sym record (loop body of
dwarf_generic_elf_load_symbols32). -/
def sym32_entry (ep : ElfState) (rec : List Nat) : GSym :=
  let gs_name := copyWord ep (rec.take 4)
  let gs_value := copyWord ep ((rec.drop 4).take 4)
  let gs_size := copyWord ep ((rec.drop 8).take 4)
  let gs_info := copyWord ep ((rec.drop 12).take 1)
  let gs_other := copyWord ep ((rec.drop 13).take 1)
  let gs_shndx := copyWord ep ((rec.drop 14).take 2)
  { gs_name, gs_value, gs_size, gs_info, gs_other, gs_shndx,
    gs_bind := gs_info >>> 4, gs_type := gs_info &&& 0xf }

/-- Parse one 24-byte dw_elf64_sym record (loop body of
dwarf_generic_elf_load_symbols64); field order is name, info, other,
shndx, value, size. -/
def sym64_entry (ep : ElfState) (rec : List Nat) : GSym :=
  let gs_name := copyWord ep (rec.take 4)
  let gs_info := copyWord ep ((rec.drop 4).take 1)
  let gs_other := copyWord ep ((rec.drop 5).take 1)
  let gs_shndx := copyWord ep ((rec.drop 6).take 2)
  let gs_value := copyWord ep ((rec.drop 8).take 8)
  let gs_size := copyWord ep ((rec.drop 16).take 8)
  { gs_name, gs_value, gs_size, gs_info, gs_other, gs_shndx,
    gs_bind := gs_info >>> 4, gs_type := gs_info &&& 0xf }

def dwarf_generic_elf_load_symbols32 (ep : ElfState) (offset size : Nat) :
    DwRes × List GSym × Nat :=
  let ecount := size / sizeof_dw_elf32_sym
  let size2 := ecount * sizeof_dw_elf32_sym
  if size ≠ size2 then (.error DW_DLE_SECTION_SIZE_ERROR, [], 0)
  else
    match RRMOA ep.f_file offset size with
    | .error c => (.error c, [], 0)
    | .ok bytes =>
      (.ok, (List.range ecount).map
        (fun i => sym32_entry ep (recAt bytes sizeof_dw_elf32_sym i)), ecount)

def dwarf_generic_elf_load_symbols64 (ep : ElfState) (offset size : Nat) :
    DwRes × List GSym × Nat :=
  let ecount := size / sizeof_dw_elf64_sym
  let size2 := ecount * sizeof_dw_elf64_sym
  if size ≠ size2 then (.error DW_DLE_SECTION_SIZE_ERROR, [], 0)
  else
    match RRMOA ep.f_file offset size with
    | .error c => (.error c, [], 0)
    | .ok bytes =>
      (.ok, (List.range ecount).map
        (fun i => sym64_entry ep (recAt bytes sizeof_dw_elf64_sym i)), ecount)

/-- dwarf_generic_elf_load_symbols dispatches on `f_offsetsize`.  The
section header `psh` is the one at index `secnum`. -/
def dwarf_generic_elf_load_symbols (ep : ElfState) (secnum : Nat) :
    DwRes × List GSym × Nat :=
  if secnum = 0 then (.noEntry, [], 0)
  else
    let psh := ep.f_shdr.getD secnum default
    if psh.gh_size > fileSize ep then
      (.error DW_DLE_SECTION_SIZE_ERROR, [], 0)
    else if ep.f_offsetsize = 32 then
      dwarf_generic_elf_load_symbols32 ep psh.gh_offset psh.gh_size
    else if ep.f_offsetsize = 64 then
      dwarf_generic_elf_load_symbols64 ep psh.gh_offset psh.gh_size
    else (.error DW_DLE_OFFSET_SIZE, [], 0)

def _dwarf_load_elf_symtab_symbols (ep : ElfState) : DwRes × ElfState :=
  let secnum := ep.f_symtab_sect_index
  if secnum = 0 then (.noEntry, ep)
  else
    let psh := ep.f_shdr.getD secnum default
    if psh.gh_size > fileSize ep then
      (.error DW_DLE_SECTION_SIZE_ERROR, ep)
    else
      match dwarf_generic_elf_load_symbols ep secnum with
      | (.ok, gsym, count) =>
        (.ok, { ep with f_symtab := some gsym, f_loc_symtab_count := count })
      | (r, _, _) => (r, ep)

/-! ### Symbol-table string loading (_dwarf_load_elf_symstr)

`calloc(1, strsectlength+1)` guarantees one NUL byte beyond the string
data; that trailing byte is the `++ [0]` below.  Allocation is modelled
as always succeeding. -/

def _dwarf_load_elf_symstr (ep : ElfState) : DwRes × ElfState :=
  if ep.f_symtab_sect_strings_sect_index = 0 then (.noEntry, ep)
  else
    let strsectindex := ep.f_symtab_sect_strings_sect_index
    let strsectlength := ep.f_symtab_sect_strings_max
    let strpsh := ep.f_shdr.getD strsectindex default
    if strsectlength > fileSize ep ∨ strpsh.gh_offset > fileSize ep ∨
        strsectlength + strpsh.gh_offset > fileSize ep then
      (.error DW_DLE_SECTION_SIZE_OR_OFFSET_LARGE, ep)
    else
      match RRMOA ep.f_file strpsh.gh_offset strsectlength with
      | .error c =>
        (.error c, { ep with
            f_symtab_sect_strings := none
            f_symtab_sect_strings_max := 0
            f_symtab_sect_strings_sect_index := 0 })
      | .ok bytes =>
        (.ok, { ep with f_symtab_sect_strings := some (bytes ++ [0]) })

/-! ### Section-name string section loading (_dwarf_elf_load_sectstrings)

When the section is no larger than the existing buffer the C code reuses
that buffer; the embedding keeps exactly the freshly read bytes, which
is observationally identical because all later accesses stay below
`f_elf_shstrings_length`. -/

def _dwarf_elf_load_sectstrings (ep : ElfState) (stringsection : Nat) :
    DwRes × ElfState :=
  let ep := { ep with f_elf_shstrings_length := 0 }
  if stringsection ≥ (ep.f_ehdr.getD default).ge_shnum then
    (.error DW_DLE_SECTION_INDEX_BAD, ep)
  else
    let psh := ep.f_shdr.getD stringsection default
    let secoffset := psh.gh_offset
    if is_empty_section psh.gh_type then
      (.error DW_DLE_ELF_STRING_SECTION_MISSING, ep)
    else if secoffset ≥ fileSize ep ∨ psh.gh_size > fileSize ep ∨
        secoffset + psh.gh_size > fileSize ep then
      (.error DW_DLE_SECTION_SIZE_OR_OFFSET_LARGE, ep)
    else
      let ep := if psh.gh_size > ep.f_elf_shstrings_max then
          { ep with f_elf_shstrings_max := psh.gh_size } else ep
      let ep := { ep with f_elf_shstrings_length := psh.gh_size }
      match RRMOA ep.f_file secoffset psh.gh_size with
      | .error c => (.error c, ep)
      | .ok bytes => (.ok, { ep with f_elf_shstrings_data := bytes })

/-! ### Relocation record decoding (generic_rel_from_rel/rela 32/64)

Each function first re-derives the record count from the section size and
rejects a size that is not an exact multiple, then converts each raw
record.  The 64-bit forms have machine-specific layouts for the symbol
and type fields of r_info. -/

/-- Loop body of generic_rel_from_rela32 on one 12-byte dw_elf32_rela. -/
def rela32_entry (ep : ElfState) (rec : List Nat) : GRela :=
  let gr_offset := copyWord ep (rec.take 4)
  let gr_info := copyWord ep ((rec.drop 4).take 4)
  let gr_addend := signExtend 4 (copyWord ep ((rec.drop 8).take 4))
  { gr_offset, gr_info, gr_addend,
    gr_sym := gr_info >>> 8, gr_type := gr_info &&& 0xff,
    gr_type2 := 0, gr_type3 := 0, gr_is_rela := true }

/-- Loop body of generic_rel_from_rela64 on one 24-byte dw_elf64_rela.
`realsym` is the first four bytes of r_info; the split type fields are
raw r_info bytes.  Fields not assigned by a branch of the C code are 0
here (the C buffer is malloc-allocated, so they are indeterminate
there). -/
def rela64_entry (ep : ElfState) (rec : List Nat) : GRela :=
  let r_info := (rec.drop 8).take 8
  let gr_offset := copyWord ep (rec.take 8)
  let gr_info := copyWord ep r_info
  let gr_addend := signExtend 8 (copyWord ep ((rec.drop 16).take 8))
  let objlittleendian := ep.f_endian == DW_OBJECT_LSB
  let ismips64 := ep.f_machine == EM_MIPS
  let issparcv9 := ep.f_machine == EM_SPARCV9
  if ismips64 && objlittleendian then
    { gr_offset, gr_info, gr_addend,
      gr_sym := copyWord ep (r_info.take 4),
      gr_type := r_info.getD 7 0, gr_type2 := r_info.getD 6 0,
      gr_type3 := r_info.getD 5 0, gr_is_rela := true }
  else if issparcv9 then
    { gr_offset, gr_info, gr_addend,
      gr_sym := copyWord ep (r_info.take 4),
      gr_type := r_info.getD 7 0, gr_type2 := 0, gr_type3 := 0,
      gr_is_rela := true }
  else
    { gr_offset, gr_info, gr_addend,
      gr_sym := gr_info >>> 32, gr_type := gr_info &&& 0xffffffff,
      gr_type2 := 0, gr_type3 := 0, gr_is_rela := true }

/-- Loop body of generic_rel_from_rel32 on one 8-byte dw_elf32_rel. -/
def rel32_entry (ep : ElfState) (rec : List Nat) : GRela :=
  let gr_offset := copyWord ep (rec.take 4)
  let gr_info := copyWord ep ((rec.drop 4).take 4)
  { gr_offset, gr_info, gr_addend := 0,
    gr_sym := gr_info >>> 8, gr_type := gr_info &&& 0xff,
    gr_type2 := 0, gr_type3 := 0, gr_is_rela := false }

/-- Loop body of generic_rel_from_rel64 on one 16-byte dw_elf64_rel. -/
def rel64_entry (ep : ElfState) (rec : List Nat) : GRela :=
  let r_info := (rec.drop 8).take 8
  let gr_offset := copyWord ep (rec.take 8)
  let gr_info := copyWord ep r_info
  let objlittleendian := ep.f_endian == DW_OBJECT_LSB
  let ismips64 := ep.f_machine == EM_MIPS
  let issparcv9 := ep.f_machine == EM_SPARCV9
  if ismips64 && objlittleendian then
    { gr_offset, gr_info, gr_addend := 0,
      gr_sym := copyWord ep (r_info.take 4),
      gr_type := r_info.getD 7 0, gr_type2 := r_info.getD 6 0,
      gr_type3 := r_info.getD 5 0, gr_is_rela := false }
  else if issparcv9 then
    { gr_offset, gr_info, gr_addend := 0,
      gr_sym := copyWord ep (r_info.take 4),
      gr_type := r_info.getD 7 0, gr_type2 := 0, gr_type3 := 0,
      gr_is_rela := false }
  else
    { gr_offset, gr_info, gr_addend := 0,
      gr_sym := gr_info >>> 32, gr_type := gr_info &&& 0xffffffff,
      gr_type2 := 0, gr_type3 := 0, gr_is_rela := false }

def generic_rel_from_rela32 (ep : ElfState) (gsh : GShdr)
    (bytes : List Nat) : Except Nat (List GRela) :=
  let size := gsh.gh_size
  let ecount := size / sizeof_dw_elf32_rela
  let size2 := ecount * sizeof_dw_elf32_rela
  if size ≠ size2 then .error DW_DLE_SECTION_SIZE_ERROR
  else .ok ((List.range ecount).map
    (fun i => rela32_entry ep (recAt bytes sizeof_dw_elf32_rela i)))

def generic_rel_from_rela64 (ep : ElfState) (gsh : GShdr)
    (bytes : List Nat) : Except Nat (List GRela) :=
  let size := gsh.gh_size
  let ecount := size / sizeof_dw_elf64_rela
  let size2 := ecount * sizeof_dw_elf64_rela
  if size ≠ size2 then .error DW_DLE_SECTION_SIZE_ERROR
  else .ok ((List.range ecount).map
    (fun i => rela64_entry ep (recAt bytes sizeof_dw_elf64_rela i)))

def generic_rel_from_rel32 (ep : ElfState) (gsh : GShdr)
    (bytes : List Nat) : Except Nat (List GRela) :=
  let size := gsh.gh_size
  let ecount := size / sizeof_dw_elf32_rel
  let size2 := ecount * sizeof_dw_elf32_rel
  if size ≠ size2 then .error DW_DLE_SECTION_SIZE_ERROR
  else .ok ((List.range ecount).map
    (fun i => rel32_entry ep (recAt bytes sizeof_dw_elf32_rel i)))

def generic_rel_from_rel64 (ep : ElfState) (gsh : GShdr)
    (bytes : List Nat) : Except Nat (List GRela) :=
  let size := gsh.gh_size
  let ecount := size / sizeof_dw_elf64_rel
  let size2 := ecount * sizeof_dw_elf64_rel
  if size ≠ size2 then .error DW_DLE_SECTION_SIZE_ERROR
  else .ok ((List.range ecount).map
    (fun i => rel64_entry ep (recAt bytes sizeof_dw_elf64_rel i)))

/-! ### Relocation batch loading (_dwarf_elf_load_a_relx_batch) -/

inductive RelocRela where
  | RelocIsRela
  | RelocIsRel
deriving DecidableEq, Repr

inductive RelocOffsetSize where
  | RelocOffset32
  | RelocOffset64
deriving DecidableEq, Repr

/-- The per-record on-disk length chosen by the four-way branch of
_dwarf_elf_load_a_relx_batch. -/
def relx_reclen (localrela : RelocRela) (localoffsize : RelocOffsetSize) :
    Nat :=
  match localoffsize, localrela with
  | .RelocOffset32, .RelocIsRela => sizeof_dw_elf32_rela
  | .RelocOffset32, .RelocIsRel => sizeof_dw_elf32_rel
  | .RelocOffset64, .RelocIsRela => sizeof_dw_elf64_rela
  | .RelocOffset64, .RelocIsRel => sizeof_dw_elf64_rel

/-- The generic_rel_from_* conversion chosen by the same branch. -/
def relx_convert (ep : ElfState) (gsh : GShdr) (localrela : RelocRela)
    (localoffsize : RelocOffsetSize) (bytes : List Nat) :
    Except Nat (List GRela) :=
  match localoffsize, localrela with
  | .RelocOffset32, .RelocIsRela => generic_rel_from_rela32 ep gsh bytes
  | .RelocOffset32, .RelocIsRel => generic_rel_from_rel32 ep gsh bytes
  | .RelocOffset64, .RelocIsRela => generic_rel_from_rela64 ep gsh bytes
  | .RelocOffset64, .RelocIsRel => generic_rel_from_rel64 ep gsh bytes

/-- _dwarf_elf_load_a_relx_batch.  In C the section header is passed by
pointer; here it is addressed by its index `secnum`, and the result
carries the `*count_out` value. -/
def _dwarf_elf_load_a_relx_batch (ep : ElfState) (secnum : Nat)
    (localrela : RelocRela) (localoffsize : RelocOffsetSize) :
    DwRes × ElfState × Nat :=
  let gsh := ep.f_shdr.getD secnum default
  let offset := gsh.gh_offset
  let size := gsh.gh_size
  if size = 0 then (.noEntry, ep, 0)
  else if offset > fileSize ep ∨ size > fileSize ep ∨
      size + offset > fileSize ep then
    (.error DW_DLE_SECTION_SIZE_OR_OFFSET_LARGE, ep, 0)
  else
    let object_reclen := relx_reclen localrela localoffsize
    let count := size / object_reclen
    let size2 := count * object_reclen
    if size ≠ size2 then (.error DW_DLE_SECTION_SIZE_ERROR, ep, 0)
    else
      match RRMOA ep.f_file offset size with
      | .error c => (.error c, ep, 0)
      | .ok bytes =>
        match relx_convert ep gsh localrela localoffsize bytes with
        | .error c => (.error c, ep, 0)
        | .ok grel =>
          let gsh2 := { gsh with gh_relcount := count, gh_rels := some grel }
          (.ok, { ep with f_shdr := ep.f_shdr.set secnum gsh2 }, count)

/-! ### Relocation section dispatch (_dwarf_load_elf_relx) -/

/-- this_rel_is_a_section_dwarf_related: second component is the
`*oksecnum_out` value. -/
def this_rel_is_a_section_dwarf_related (ep : ElfState) (gshdr : GShdr) :
    DwRes × Nat :=
  if gshdr.gh_type ≠ SHT_RELA ∧ gshdr.gh_type ≠ SHT_REL then (.ok, 0)
  else
    let oksecnum := gshdr.gh_reloc_target_secnum
    if oksecnum ≥ ep.f_loc_shdr_count then
      (.error DW_DLE_ELF_SECTION_ERROR, 0)
    else
      let gstarg := ep.f_shdr.getD oksecnum default
      if !gstarg.gh_is_dwarf then (.ok, 0)
      else (.ok, oksecnum)

/-- _dwarf_load_elf_relx.  `secnum` is the number of the rel/rela section
itself, not of the relocation target. -/
def _dwarf_load_elf_relx (ep : ElfState) (secnum : Nat)
    (localr : RelocRela) : DwRes × ElfState :=
  let offsetsize := ep.f_offsetsize
  let seccount := ep.f_loc_shdr_count
  if secnum ≥ seccount then (.error DW_DLE_ELF_SECTION_ERROR, ep)
  else
    let gshdr := ep.f_shdr.getD secnum default
    if is_empty_section gshdr.gh_type then (.noEntry, ep)
    else
      match this_rel_is_a_section_dwarf_related ep gshdr with
      | (.error c, _) => (.error c, ep)
      | (_, oksec) =>
        if oksec = 0 then (.ok, ep)
        else
          if offsetsize ≠ 64 ∧ offsetsize ≠ 32 then
            (.error DW_DLE_OFFSET_SIZE, ep)
          else
            let localoffsize := if offsetsize = 64 then
                RelocOffsetSize.RelocOffset64
              else RelocOffsetSize.RelocOffset32
            match _dwarf_elf_load_a_relx_batch ep secnum localr
                localoffsize with
            | (.ok, ep2, count_read) =>
              let gshdr2 := ep2.f_shdr.getD secnum default
              let gshdr3 := { gshdr2 with gh_relcount := count_read }
              (.ok, { ep2 with f_shdr := ep2.f_shdr.set secnum gshdr3 })
            | (r, ep2, _) => (r, ep2)

/-! ### Section-name validation (validate_section_name_string and
_dwarf_elf_load_sect_namestring) -/

/-- The scanning loop of validate_section_name_string: is there a NUL
byte in the given byte span. -/
def has_nul : List Nat → Bool
  | [] => false
  | b :: rest => if b = 0 then true else has_nul rest

def validate_section_name_string (section_length string_loc_index : Nat)
    (strings_start : List Nat) : DwRes :=
  if section_length ≤ string_loc_index then
    .error DW_DLE_SECTION_STRING_OFFSET_BAD
  else if has_nul ((strings_start.drop string_loc_index).take
      (section_length - string_loc_index)) then .ok
  else .error DW_DLE_SECTION_STRING_OFFSET_BAD

/-- Bytes of a NUL-terminated C string starting at a byte offset. -/
def takeUntilNul : List Nat → List Nat
  | [] => []
  | b :: rest => if b = 0 then [] else b :: takeUntilNul rest

/-- The pointer `stringsecbase + gh_name` as the string it denotes. -/
def cstring_at (bs : List Nat) (off : Nat) : String :=
  String.mk ((takeUntilNul (bs.drop off)).map Char.ofNat)

def invalid_sh_name_text : String := "<Invalid sh_name value. Corrupt Elf.>"

/-- Loop of _dwarf_elf_load_sect_namestring over the section headers: on
the first invalid name the placeholder is stored and the walk stops. -/
def load_sect_namestring_loop (shstrlen : Nat) (base : List Nat) :
    List GShdr → DwRes × List GShdr
  | [] => (.ok, [])
  | gshdr :: rest =>
    match validate_section_name_string shstrlen gshdr.gh_name base with
    | .error c =>
      (.error c, { gshdr with gh_namestring := invalid_sh_name_text } :: rest)
    | _ =>
      let gshdr2 := { gshdr with gh_namestring := cstring_at base gshdr.gh_name }
      let r2 := load_sect_namestring_loop shstrlen base rest
      (r2.1, gshdr2 :: r2.2)

def _dwarf_elf_load_sect_namestring (ep : ElfState) : DwRes × ElfState :=
  let r := load_sect_namestring_loop ep.f_elf_shstrings_length
    ep.f_elf_shstrings_data ep.f_shdr
  (r.1, { ep with f_shdr := r.2 })

/-! ### ELF file-header loading (_dwarf_load_elf_header) -/

/-- Parse a 52-byte dw_elf32_ehdr and install it (generic_ehdr_from_32;
the f_loc_ehdr bookkeeping fields are not modelled). -/
def generic_ehdr_from_32 (ep : ElfState) (e : List Nat) : DwRes × ElfState :=
  let cw := fun off len => copyWord ep ((e.drop off).take len)
  let ehdr : GEhdr := {
    ge_ident := e.take 16
    ge_type := cw 16 2
    ge_machine := cw 18 2
    ge_version := cw 20 4
    ge_entry := cw 24 4
    ge_phoff := cw 28 4
    ge_shoff := cw 32 4
    ge_flags := cw 36 4
    ge_ehsize := cw 40 2
    ge_phentsize := cw 42 2
    ge_phnum := cw 44 2
    ge_shentsize := cw 46 2
    ge_shnum := cw 48 2
    ge_shstrndx := cw 50 2 }
  (.ok, { ep with f_machine := ehdr.ge_machine, f_ehdr := some ehdr })

/-- Parse a 64-byte dw_elf64_ehdr and install it (generic_ehdr_from_64). -/
def generic_ehdr_from_64 (ep : ElfState) (e : List Nat) : DwRes × ElfState :=
  let cw := fun off len => copyWord ep ((e.drop off).take len)
  let ehdr : GEhdr := {
    ge_ident := e.take 16
    ge_type := cw 16 2
    ge_machine := cw 18 2
    ge_version := cw 20 4
    ge_entry := cw 24 8
    ge_phoff := cw 32 8
    ge_shoff := cw 40 8
    ge_flags := cw 48 4
    ge_ehsize := cw 52 2
    ge_phentsize := cw 54 2
    ge_phnum := cw 56 2
    ge_shentsize := cw 58 2
    ge_shnum := cw 60 2
    ge_shstrndx := cw 62 2 }
  (.ok, { ep with f_machine := ehdr.ge_machine, f_ehdr := some ehdr })

def elf_load_elf_header32 (ep : ElfState) : DwRes × ElfState :=
  match RRMOA ep.f_file 0 sizeof_dw_elf32_ehdr with
  | .error c => (.error c, ep)
  | .ok bytes => generic_ehdr_from_32 ep bytes

def elf_load_elf_header64 (ep : ElfState) : DwRes × ElfState :=
  match RRMOA ep.f_file 0 sizeof_dw_elf64_ehdr with
  | .error c => (.error c, ep)
  | .ok bytes => generic_ehdr_from_64 ep bytes

/-- validate_struct_sizes compares the sizes of the packed dw_elf*
layouts with the system elf.h structure sizes when HAVE_ELF_H is set.
All twelve comparisons are between equal constants, so the function
always reports OK. -/
def validate_struct_sizes : DwRes := .ok

def _dwarf_load_elf_header (ep : ElfState) : DwRes × ElfState :=
  match validate_struct_sizes with
  | .ok =>
    if ep.f_offsetsize = 32 then elf_load_elf_header32 ep
    else if ep.f_offsetsize = 64 then
      (if sizeof_Dwarf_Unsigned < 8 then
        (.error DW_DLE_INTEGER_TOO_SMALL, ep)
      else elf_load_elf_header64 ep)
    else (.error DW_DLE_OFFSET_SIZE, ep)
  | r => (r, ep)

/-! ### Section groups (read_gs_section_group and
_dwarf_elf_setup_all_section_groups)

The C loops over section indices are rendered as structural recursion
over explicit index lists; the callers pass `List.range count` (or
`List.range' 1 (count-1)` for the group-payload entries, whose index
starts at 1). -/

/-- Either SHT_GROUP or a section literally named .group counts as a
group section (elf_sht_groupsec). -/
def elf_sht_groupsec (t : Nat) (sname : String) : Bool :=
  t == SHT_GROUP || sname == ".group"

def elf_flagmatches (flagsword flag : Nat) : Bool :=
  flagsword &&& flag == flag

/-- Native-order value of the `i`-th 32-bit word of an SHT_GROUP
payload (the value the C loop names `gseca`). -/
def gsNative (hostle : Bool) (data : List Nat) (i : Nat) : Nat :=
  asnar hostle ((data.drop (DWARF_32BIT_SIZE * i)).take DWARF_32BIT_SIZE)

/-- Byte-swapped value of the same word (the C loop's `gsecb`). -/
def gsSwapped (hostle : Bool) (data : List Nat) (i : Nat) : Nat :=
  asnar (!hostle) ((data.drop (DWARF_32BIT_SIZE * i)).take DWARF_32BIT_SIZE)

/-- The section number selected for one SHT_GROUP payload entry: the
native-order value `gseca` unless it exceeds the section count, in which
case the byte-swapped value `gsecb` is substituted. -/
def gsSelect (hostle : Bool) (shcount : Nat) (data : List Nat) (i : Nat) :
    Nat :=
  if gsNative hostle data i > shcount then gsSwapped hostle data i
  else gsNative hostle data i

/-- Result of the SHT_GROUP payload loop: status, state, the grouparray
built so far, and the `foundone` flag. -/
abbrev GsLoopRes : Type := DwRes × ElfState × List Nat × Bool

/-- The entry loop of read_gs_section_group (source lines 1806-1847),
over the list of remaining payload entry indices.  On an error the
grouparray is dropped but the group numbers already stored into target
sections persist, as in C. -/
def gs_group_loop (data : List Nat) :
    ElfState → List Nat → List Nat → Bool → GsLoopRes
  | ep, [], acc, foundone => (.ok, ep, acc, foundone)
  | ep, i :: rest, acc, foundone =>
    let gseca := gsNative ep.f_hostle data i
    let gsecb := gsSwapped ep.f_hostle data i
    if gseca = 0 then
      (.error DW_DLE_ELF_SECTION_GROUP_ERROR, ep, acc, foundone)
    else if gseca > ep.f_loc_shdr_count ∧ gsecb > ep.f_loc_shdr_count then
      (.error DW_DLE_ELF_SECTION_GROUP_ERROR, ep, acc, foundone)
    else
      let gsec := if gseca > ep.f_loc_shdr_count then gsecb else gseca
      let targpsh := ep.f_shdr.getD gsec default
      if targpsh.gh_section_group_number ≠ 0 then
        (.error DW_DLE_ELF_SECTION_GROUP_ERROR, ep, acc, foundone)
      else
        let targ2 := { targpsh with
            gh_section_group_number := ep.f_sg_next_group_number }
        gs_group_loop data { ep with f_shdr := ep.f_shdr.set gsec targ2 }
          rest (acc ++ [gsec]) true

/-- read_gs_section_group for the SHT_GROUP section at index `secnum`.
Allocation is modelled as always succeeding. -/
def read_gs_section_group (ep : ElfState) (secnum : Nat) :
    DwRes × ElfState :=
  let psh := ep.f_shdr.getD secnum default
  if psh.gh_sht_group_array.isSome then (.ok, ep)
  else
    let seclen := psh.gh_size
    if seclen < DWARF_32BIT_SIZE then
      (.error DW_DLE_ELF_SECTION_GROUP_ERROR, ep)
    else if psh.gh_entsize ≠ DWARF_32BIT_SIZE then
      (.error DW_DLE_ELF_SECTION_GROUP_ERROR, ep)
    else if psh.gh_entsize = 0 then
      (.error DW_DLE_ELF_SECTION_GROUP_ERROR, ep)
    else
      let count := seclen / psh.gh_entsize
      if count > ep.f_loc_shdr_count then
        (.error DW_DLE_ELF_SECTION_GROUP_ERROR, ep)
      else
        match RRMOA ep.f_file psh.gh_offset seclen with
        | .error c => (.error c, ep)
        | .ok data =>
          let va := asnar ep.f_hostle (data.take DWARF_32BIT_SIZE)
          if va ≠ 1 ∧ va ≠ 0x1000000 then
            (.error DW_DLE_ELF_SECTION_GROUP_ERROR, ep)
          else
            match gs_group_loop data ep (List.range' 1 (count - 1)) [1]
                false with
            | (.ok, ep2, grouparray, foundone) =>
              let ep3 := if foundone then
                  { ep2 with
                    f_sg_next_group_number := ep2.f_sg_next_group_number + 1
                    f_sht_group_type_section_count :=
                      ep2.f_sht_group_type_section_count + 1 }
                else ep2
              let psh2 := ep3.f_shdr.getD secnum default
              let psh3 := { psh2 with
                  gh_sht_group_array := some grouparray
                  gh_sht_group_array_count := count }
              (.ok, { ep3 with f_shdr := ep3.f_shdr.set secnum psh3 })
            | (r, ep2, _, _) => (r, ep2)

/-- First loop (steps A and B) of _dwarf_elf_setup_all_section_groups:
count SHF_GROUP flags and read every SHT_GROUP payload. -/
def setup_groups_passA : ElfState → List Nat → DwRes × ElfState
  | ep, [] => (.ok, ep)
  | ep, i :: rest =>
    let psh := ep.f_shdr.getD i default
    let name := psh.gh_namestring
    if is_empty_section psh.gh_type then setup_groups_passA ep rest
    else if !(elf_sht_groupsec psh.gh_type name) then
      let ep2 := if elf_flagmatches psh.gh_flags SHF_GROUP then
          { ep with f_shf_group_flag_section_count :=
              ep.f_shf_group_flag_section_count + 1 }
        else ep
      setup_groups_passA ep2 rest
    else
      match read_gs_section_group ep i with
      | (.ok, ep2) => setup_groups_passA ep2 rest
      | (r, ep2) => (r, ep2)

/-- Second loop (step C) of _dwarf_elf_setup_all_section_groups: mark
`.dwo` sections as group DW_GROUPNUMBER_DWO, give other DWARF sections
the base group when they are still unassigned. -/
def setup_groups_passC (ign : String → Bool) :
    ElfState → List Nat → DwRes × ElfState
  | ep, [] => (.ok, ep)
  | ep, i :: rest =>
    let psh := ep.f_shdr.getD i default
    let name := psh.gh_namestring
    if is_empty_section psh.gh_type then setup_groups_passC ign ep rest
    else if elf_sht_groupsec psh.gh_type name then
      setup_groups_passC ign ep rest
    else if string_endswith name ".dwo" then
      (if psh.gh_section_group_number ≠ 0 then
        (.error DW_DLE_ELF_SECTION_GROUP_ERROR, ep)
      else
        let psh2 := { psh with
            gh_is_dwarf := true
            gh_section_group_number := DW_GROUPNUMBER_DWO }
        setup_groups_passC ign
          { ep with
            f_shdr := ep.f_shdr.set i psh2
            f_dwo_group_section_count := ep.f_dwo_group_section_count + 1 }
          rest)
    else if (_dwarf_load_elf_section_is_dwarf ign name).isdwarf then
      let newnum := if psh.gh_section_group_number = 0 then
          DW_GROUPNUMBER_BASE else psh.gh_section_group_number
      let psh2 := { psh with
          gh_section_group_number := newnum
          gh_is_dwarf := true }
      setup_groups_passC ign { ep with f_shdr := ep.f_shdr.set i psh2 } rest
    else setup_groups_passC ign ep rest

/-- _dwarf_elf_setup_all_section_groups.  The trailing checks of the C
function (source lines 1950-1957) alter nothing and return OK. -/
def _dwarf_elf_setup_all_section_groups (ign : String → Bool)
    (ep : ElfState) : DwRes × ElfState :=
  let count := ep.f_loc_shdr_count
  match setup_groups_passA ep (List.range count) with
  | (.ok, ep1) => setup_groups_passC ign ep1 (List.range count)
  | r => r

/-! ## Concrete states used by the witness theorems -/

/-- Shorthand for a section header with the fields the witnesses vary. -/
def mksec (name : String) (t off sz ent flags : Nat) : GShdr :=
  { gh_secnum := 0, gh_name := 0, gh_namestring := name, gh_type := t,
    gh_flags := flags, gh_addr := 0, gh_offset := off, gh_size := sz,
    gh_link := 0, gh_info := 0, gh_entsize := ent,
    gh_reloc_target_secnum := 0, gh_is_dwarf := false,
    gh_section_group_number := 0, gh_sht_group_array := none,
    gh_sht_group_array_count := 0, gh_rels := none, gh_relcount := 0 }

/-- A small base state; individual witnesses override fields. -/
def epBase : ElfState :=
  { f_hostle := true, f_endian := DW_OBJECT_LSB, f_machine := 0,
    f_offsetsize := 32, f_file := [], f_ehdr := none, f_shdr := [],
    f_loc_shdr_count := 0, f_elf_shstrings_data := [],
    f_elf_shstrings_length := 0, f_elf_shstrings_max := 0,
    f_symtab_sect_index := 0, f_symtab_sect_strings_sect_index := 0,
    f_symtab_sect_strings_max := 0, f_symtab_sect_strings := none,
    f_symtab := none, f_loc_symtab_count := 0,
    f_sg_next_group_number := 3, f_sht_group_type_section_count := 0,
    f_shf_group_flag_section_count := 0, f_dwo_group_section_count := 0 }

/-- Witness for C10: a state whose string-section bounds are bad, so the
load fails; the theorem applies and the buffer stays unset. -/
def epW10 : ElfState :=
  { epBase with
    f_file := [0, 0]
    f_shdr := [mksec "" SHT_NULL 0 0 0 0, mksec ".strtab" 3 9 5 0 0]
    f_loc_shdr_count := 2
    f_symtab_sect_strings_sect_index := 1
    f_symtab_sect_strings_max := 5 }

/-- Witness for C8: offset size 63 on a two-section state with a REL
section targeting a DWARF section. -/
def epW8 : ElfState :=
  { epBase with
    f_offsetsize := 63
    f_file := [0, 0, 0, 0, 0, 0, 0, 0]
    f_shdr := [mksec "" SHT_NULL 0 0 0 0,
      { mksec ".rel.debug_info" SHT_REL 0 8 8 0 with
          gh_reloc_target_secnum := 2 },
      { mksec ".debug_info" 1 0 4 0 0 with gh_is_dwarf := true },
      mksec ".symtab" 2 0 8 0 0]
    f_loc_shdr_count := 4
    f_symtab_sect_index := 3 }

/-- Witness for C7: section 1 is a REL section targeting non-DWARF
section 2; section 3 is a REL section with an out-of-range target. -/
def epW7 : ElfState :=
  { epBase with
    f_file := [0, 0, 0, 0, 0, 0, 0, 0]
    f_shdr := [mksec "" SHT_NULL 0 0 0 0,
      { mksec ".rel.text" SHT_REL 0 8 8 0 with
          gh_reloc_target_secnum := 2 },
      mksec ".text" 1 0 4 0 0,
      { mksec ".rel.data" SHT_REL 0 8 8 0 with
          gh_reloc_target_secnum := 9 }]
    f_loc_shdr_count := 4 }

/-- A file header literal for the witnesses. -/
def mkehdr (shnum shstrndx : Nat) : GEhdr :=
  { ge_ident := [], ge_type := 0, ge_machine := 0, ge_version := 0,
    ge_entry := 0, ge_phoff := 0, ge_shoff := 0, ge_flags := 0,
    ge_ehsize := 0, ge_phentsize := 0, ge_phnum := 0, ge_shentsize := 0,
    ge_shnum := shnum, ge_shstrndx := shstrndx }

/-- Witness for C4: a section whose size exceeds the two-byte file. -/
def epW4 : ElfState :=
  { epBase with
    f_file := [0, 0]
    f_ehdr := some (mkehdr 2 1)
    f_shdr := [mksec "" SHT_NULL 0 0 0 0, mksec ".shstrtab" 3 0 9 0 0]
    f_loc_shdr_count := 2
    f_symtab_sect_strings_sect_index := 1
    f_symtab_sect_strings_max := 9 }

/-- Witness for C9: a 17-byte symbol section is rejected, and a 12-byte
RELA32 section delivers exactly one record. -/
def epW9 : ElfState :=
  { epBase with
    f_file := List.replicate 12 0
    f_shdr := [mksec "" SHT_NULL 0 0 0 0,
      mksec ".rela.debug_info" SHT_RELA 0 12 12 0]
    f_loc_shdr_count := 2 }

/-- States for the C5 witness: MIPS64 little-endian, SPARCV9, and a
default machine. -/
def epW5m : ElfState :=
  { epBase with f_machine := EM_MIPS, f_endian := DW_OBJECT_LSB }

def epW5s : ElfState :=
  { epBase with f_machine := EM_SPARCV9, f_endian := DW_OBJECT_MSB }

def epW5o : ElfState :=
  { epBase with f_machine := 62, f_endian := DW_OBJECT_LSB }

/-- A concrete 24-byte RELA64 record for the C5 witness. -/
def recW5 : List Nat :=
  [0, 1, 2, 3, 4, 5, 6, 7, 8, 9, 10, 11, 12, 13, 14, 15, 16, 17, 18, 19,
    20, 21, 22, 23]

/-- Witness for C6: strings "\\0A" of length 2; offset 1 has no NUL
before the end, offset 0 is valid; the walk stops at section 1. -/
def epW6 : ElfState :=
  { epBase with
    f_shdr := [{ mksec "" SHT_NULL 0 0 0 0 with gh_name := 0 },
      { mksec "x" 1 0 0 0 0 with gh_name := 1 },
      { mksec "y" 1 0 0 0 0 with gh_name := 7 }]
    f_loc_shdr_count := 3
    f_elf_shstrings_data := [0, 65]
    f_elf_shstrings_length := 2 }

/-- Cleanliness of a section record as pass A maintains it: not yet
marked as DWARF, and grouped only by an SHT_GROUP number (at least 3)
if at all. -/
def CleanSec (sec : GShdr) : Prop :=
  sec.gh_is_dwarf = false ∧
  (sec.gh_section_group_number = 0 ∨ 3 ≤ sec.gh_section_group_number)

/-- A group number as pass A leaves them: absent or an SHT_GROUP
number. -/
def GroupFree (sec : GShdr) : Prop :=
  sec.gh_section_group_number = 0 ∨ 3 ≤ sec.gh_section_group_number

/-- A DWARF-marked section carries a group number. -/
def DwGrouped (sec : GShdr) : Prop :=
  sec.gh_is_dwarf = true → sec.gh_section_group_number ≠ 0

/-- The per-section postcondition of pass C: a data-carrying,
non-group-section either ends in .dwo and sits in the DWO group, or is
classified DWARF and sits in the base group unless an SHT_GROUP number
had already been assigned. -/
def GroupAssigned (ign : String → Bool) (sec : GShdr) : Prop :=
  is_empty_section sec.gh_type = false →
  elf_sht_groupsec sec.gh_type sec.gh_namestring = false →
  (string_endswith sec.gh_namestring ".dwo" = true →
    sec.gh_section_group_number = DW_GROUPNUMBER_DWO ∧
    sec.gh_is_dwarf = true) ∧
  (string_endswith sec.gh_namestring ".dwo" = false →
    (_dwarf_load_elf_section_is_dwarf ign sec.gh_namestring).isdwarf =
      true →
    sec.gh_is_dwarf = true ∧
    (sec.gh_section_group_number = DW_GROUPNUMBER_BASE ∨
      3 ≤ sec.gh_section_group_number))

/-! ## Claim C2 -/

/-- A state in which a pass-C `.dwo` section already carries a group. -/
def epC2d : ElfState :=
  { epBase with
    f_shdr := [{ mksec ".debug_info.dwo" 1 0 4 0 0 with
      gh_section_group_number := 3 }]
    f_loc_shdr_count := 1 }

/-- A state in which an SHT_GROUP payload entry targets a section that
already carries a group number. -/
def epC2g : ElfState :=
  { epBase with
    f_shdr := [mksec "" SHT_NULL 0 0 0 0,
      mksec ".debug_info" 1 0 4 0 0,
      { mksec ".debug_str" 1 0 4 0 0 with gh_section_group_number := 5 }]
    f_loc_shdr_count := 3 }

/-- SHT_GROUP payload naming section 2. -/
def dataC2g : List Nat := [2, 0, 0, 0]

def ignC2 : String → Bool := fun _ => false

/-- Five sections: null, a .group SHT_GROUP naming .debug_info, then
.debug_info, .debug_abbrev.dwo and .text. -/
def epC2 : ElfState :=
  { epBase with
    f_file := [1, 0, 0, 0, 2, 0, 0, 0]
    f_shdr := [mksec "" SHT_NULL 0 0 0 0,
      mksec ".group" SHT_GROUP 0 8 4 0,
      mksec ".debug_info" 1 0 4 0 0,
      mksec ".debug_abbrev.dwo" 1 0 4 0 0,
      mksec ".text" 1 0 4 0 0]
    f_loc_shdr_count := 5 }

/-! ## Claim C3 -/

/-- A clean three-section state whose SHT_GROUP section (index 1) has
an eight-byte payload naming section 2. -/
def epC3w : ElfState :=
  { epBase with
    f_file := [1, 0, 0, 0, 2, 0, 0, 0]
    f_shdr := [mksec "" SHT_NULL 0 0 0 0,
      mksec ".group" SHT_GROUP 0 8 4 0,
      mksec ".debug_info" 1 0 4 0 0]
    f_loc_shdr_count := 3 }

/-- The payload bytes of epC3w. -/
def dataC3w : List Nat := [1, 0, 0, 0, 2, 0, 0, 0]

/-- A state whose SHT_GROUP payload names section 2 twice. -/
def epC3 : ElfState :=
  { epBase with
    f_file := [1, 0, 0, 0, 2, 0, 0, 0, 2, 0, 0, 0]
    f_shdr := [mksec "" SHT_NULL 0 0 0 0,
      mksec ".group" SHT_GROUP 0 12 4 0,
      mksec ".debug_info" 1 0 4 0 0]
    f_loc_shdr_count := 3 }

/-- The payload bytes of epC3. -/
def dataC3 : List Nat := [1, 0, 0, 0, 2, 0, 0, 0, 2, 0, 0, 0]

/-! ## Shared helper lemmas -/

theorem getD_set_self {α : Type} (l : List α) (i : Nat) (x d : α)
    (h : i < l.length) : (l.set i x).getD i d = x := by
  simp [List.getD_eq_getElem?_getD, List.getElem?_set_eq_of_lt _ h]

theorem getD_set_ne {α : Type} (l : List α) (i j : Nat) (x d : α)
    (h : i ≠ j) : (l.set i x).getD j d = l.getD j d := by
  simp [List.getD_eq_getElem?_getD, List.getElem?_set_ne h]

/-! ## Claim C1 -/

/-- Claim C1: the classifier was claimed to report REL (is_rel) for
names beginning with `.rel.` and RELA (is_rela) for names beginning
with `.rela.`, with exactly one flag set.  The code instead stores TRUE
into `*is_rela` in both branches (source line 151), so a plain `.rel.`
section is reported with is_rela set and is_rel clear.  Evaluating the
embedded classifier at `.rel.debug_info` (not an ignored section)
exhibits the divergence; `.rela.debug_info` behaves as claimed. -/
theorem claim_C1_rel_name_sets_rela_flag :
    _dwarf_load_elf_section_is_dwarf (fun _ => false) ".rel.debug_info"
      = ⟨true, true, false⟩ ∧
    _dwarf_load_elf_section_is_dwarf (fun _ => false) ".rela.debug_info"
      = ⟨true, true, false⟩ := by decide

/-! ## Claim C10 -/

/-- Claim C10: _dwarf_load_elf_symstr is atomic at its interface: when
it returns any status other than OK on a state whose symbol-string
buffer is not yet set, the resulting state's buffer is still unset (the
only path that stores the buffer is the fully successful one; the
failed-read path frees and clears it). -/
theorem claim_C10_symstr_atomic (ep : ElfState)
    (hinit : ep.f_symtab_sect_strings = none)
    (r : DwRes) (ep2 : ElfState)
    (hrun : _dwarf_load_elf_symstr ep = (r, ep2)) (hne : r ≠ .ok) :
    ep2.f_symtab_sect_strings = none := by
  unfold _dwarf_load_elf_symstr at hrun
  by_cases h0 : ep.f_symtab_sect_strings_sect_index = 0
  · simp only [h0, if_pos rfl] at hrun
    cases hrun
    exact hinit
  · simp only [if_neg h0] at hrun
    split at hrun
    · cases hrun
      exact hinit
    · split at hrun
      · cases hrun
        rfl
      · cases hrun
        exact absurd rfl hne

theorem claim_C10_witness :
    epW10.f_symtab_sect_strings = none ∧
    (_dwarf_load_elf_symstr epW10).1 ≠ DwRes.ok ∧
    ((_dwarf_load_elf_symstr epW10).2).f_symtab_sect_strings = none :=
  ⟨by decide, by decide,
    claim_C10_symstr_atomic epW10 (by decide) (_dwarf_load_elf_symstr epW10).1
      (_dwarf_load_elf_symstr epW10).2 rfl (by decide)⟩

/-! ## Claim C8 -/

/-- Claim C8: whenever the recorded offset size is neither 32 nor 64,
ELF header loading, symbol-table loading and relocation loading each
return ERROR with DW_DLE_OFFSET_SIZE and load nothing (the state is
returned unchanged, and the symbol loader delivers no entries).  The
symbol and relocation conjuncts carry the preconditions that reach the
offset-size dispatch: a nonzero symtab section with an in-bounds size,
and a REL/RELA section whose relocation target is a DWARF section. -/
theorem claim_C8_offset_size_errors (ep : ElfState)
    (h32 : ep.f_offsetsize ≠ 32) (h64 : ep.f_offsetsize ≠ 64) :
    _dwarf_load_elf_header ep = (.error DW_DLE_OFFSET_SIZE, ep) ∧
    (∀ secnum, secnum ≠ 0 →
      (ep.f_shdr.getD secnum default).gh_size ≤ fileSize ep →
      dwarf_generic_elf_load_symbols ep secnum =
        (.error DW_DLE_OFFSET_SIZE, [], 0)) ∧
    (∀ secnum localr,
      secnum < ep.f_loc_shdr_count →
      ((ep.f_shdr.getD secnum default).gh_type = SHT_REL ∨
        (ep.f_shdr.getD secnum default).gh_type = SHT_RELA) →
      (ep.f_shdr.getD secnum default).gh_reloc_target_secnum <
        ep.f_loc_shdr_count →
      (ep.f_shdr.getD secnum default).gh_reloc_target_secnum ≠ 0 →
      (ep.f_shdr.getD
          (ep.f_shdr.getD secnum default).gh_reloc_target_secnum
          default).gh_is_dwarf = true →
      _dwarf_load_elf_relx ep secnum localr =
        (.error DW_DLE_OFFSET_SIZE, ep)) := by
  refine ⟨?_, ?_, ?_⟩
  · unfold _dwarf_load_elf_header validate_struct_sizes
    simp [h32, h64]
  · intro secnum hs hb
    unfold dwarf_generic_elf_load_symbols
    rw [if_neg hs, if_neg (by omega), if_neg h32, if_neg h64]
  · intro secnum localr hlt htype htlt ht0 hdw
    have hemp : is_empty_section
        (ep.f_shdr.getD secnum default).gh_type = false := by
      rcases htype with h | h <;> rw [h] <;> decide
    have hrel : this_rel_is_a_section_dwarf_related ep
        (ep.f_shdr.getD secnum default) =
        (.ok, (ep.f_shdr.getD secnum default).gh_reloc_target_secnum) := by
      unfold this_rel_is_a_section_dwarf_related
      have hcond : ¬ ((ep.f_shdr.getD secnum default).gh_type ≠ SHT_RELA ∧
          (ep.f_shdr.getD secnum default).gh_type ≠ SHT_REL) :=
        fun hc => htype.elim (fun h => hc.2 h) (fun h => hc.1 h)
      rw [if_neg hcond, if_neg (by omega)]
      simp only [hdw, Bool.not_true, Bool.false_eq_true, if_false]
    unfold _dwarf_load_elf_relx
    rw [if_neg (by omega)]
    simp only [hemp, Bool.false_eq_true, if_false, hrel]
    rw [if_neg ht0, if_pos ⟨h64, h32⟩]

theorem claim_C8_witness :
    epW8.f_offsetsize ≠ 32 ∧ epW8.f_offsetsize ≠ 64 ∧
    _dwarf_load_elf_header epW8 = (.error DW_DLE_OFFSET_SIZE, epW8) ∧
    dwarf_generic_elf_load_symbols epW8 3 =
      (.error DW_DLE_OFFSET_SIZE, [], 0) ∧
    _dwarf_load_elf_relx epW8 1 RelocRela.RelocIsRel =
      (.error DW_DLE_OFFSET_SIZE, epW8) := by
  have h := claim_C8_offset_size_errors epW8 (by decide) (by decide)
  exact ⟨by decide, by decide, h.1,
    h.2.1 3 (by decide) (by decide),
    h.2.2 1 RelocRela.RelocIsRel (by decide) (by decide) (by decide)
      (by decide) (by decide)⟩

/-! ## Claim C7 -/

/-- Claim C7: for a REL/RELA section whose in-range relocation target is
not marked DWARF-bearing, _dwarf_load_elf_relx returns OK with the state
untouched (no relocation records read, no gh_rels list stored, so
gh_relcount keeps its value, zero on a freshly loaded state); for a
target section number at or beyond the section count it returns ERROR
with DW_DLE_ELF_SECTION_ERROR, also leaving the state untouched. -/
theorem claim_C7_non_dwarf_target_skipped (ep : ElfState) (secnum : Nat)
    (localr : RelocRela)
    (hsec : secnum < ep.f_loc_shdr_count)
    (htype : (ep.f_shdr.getD secnum default).gh_type = SHT_REL ∨
      (ep.f_shdr.getD secnum default).gh_type = SHT_RELA) :
    ((ep.f_shdr.getD secnum default).gh_reloc_target_secnum <
        ep.f_loc_shdr_count →
      (ep.f_shdr.getD
          (ep.f_shdr.getD secnum default).gh_reloc_target_secnum
          default).gh_is_dwarf = false →
      _dwarf_load_elf_relx ep secnum localr = (.ok, ep)) ∧
    ((ep.f_shdr.getD secnum default).gh_reloc_target_secnum ≥
        ep.f_loc_shdr_count →
      _dwarf_load_elf_relx ep secnum localr =
        (.error DW_DLE_ELF_SECTION_ERROR, ep)) := by
  have hemp : is_empty_section
      (ep.f_shdr.getD secnum default).gh_type = false := by
    rcases htype with h | h <;> rw [h] <;> decide
  have hcond : ¬ ((ep.f_shdr.getD secnum default).gh_type ≠ SHT_RELA ∧
      (ep.f_shdr.getD secnum default).gh_type ≠ SHT_REL) :=
    fun hc => htype.elim (fun h => hc.2 h) (fun h => hc.1 h)
  constructor
  · intro htlt hndw
    have hrel : this_rel_is_a_section_dwarf_related ep
        (ep.f_shdr.getD secnum default) = (.ok, 0) := by
      unfold this_rel_is_a_section_dwarf_related
      rw [if_neg hcond, if_neg (by omega)]
      simp only [hndw, Bool.not_false, if_true]
    unfold _dwarf_load_elf_relx
    rw [if_neg (by omega)]
    simp only [hemp, Bool.false_eq_true, if_false, hrel]
    simp
  · intro htge
    have hrel : this_rel_is_a_section_dwarf_related ep
        (ep.f_shdr.getD secnum default) =
        (.error DW_DLE_ELF_SECTION_ERROR, 0) := by
      unfold this_rel_is_a_section_dwarf_related
      rw [if_neg hcond, if_pos (by omega)]
    unfold _dwarf_load_elf_relx
    rw [if_neg (by omega)]
    simp only [hemp, Bool.false_eq_true, if_false, hrel]

/-! ## Claim C4 -/

/-- Claim C4: every file range the ELF loader reads (section-header
string data in _dwarf_elf_load_sectstrings, symbol-table strings in
_dwarf_load_elf_symstr, relocation batches in
_dwarf_elf_load_a_relx_batch) is bounds-checked before the read: when
offset, size, or offset+size exceeds the file size the function returns
ERROR with DW_DLE_SECTION_SIZE_OR_OFFSET_LARGE before any read (the
returned state shows no read happened), and conversely a load that
reports OK had offset ≤ filesize, size ≤ filesize and offset + size ≤
filesize. -/
theorem claim_C4_bounds_checked_before_read (ep : ElfState) :
    (∀ ss,
      ss < (ep.f_ehdr.getD default).ge_shnum →
      is_empty_section (ep.f_shdr.getD ss default).gh_type = false →
      ((ep.f_shdr.getD ss default).gh_offset > fileSize ep ∨
        (ep.f_shdr.getD ss default).gh_size > fileSize ep ∨
        (ep.f_shdr.getD ss default).gh_offset +
          (ep.f_shdr.getD ss default).gh_size > fileSize ep) →
      _dwarf_elf_load_sectstrings ep ss =
        (.error DW_DLE_SECTION_SIZE_OR_OFFSET_LARGE,
          { ep with f_elf_shstrings_length := 0 })) ∧
    (∀ ss, (_dwarf_elf_load_sectstrings ep ss).1 = .ok →
      (ep.f_shdr.getD ss default).gh_offset ≤ fileSize ep ∧
      (ep.f_shdr.getD ss default).gh_size ≤ fileSize ep ∧
      (ep.f_shdr.getD ss default).gh_offset +
        (ep.f_shdr.getD ss default).gh_size ≤ fileSize ep) ∧
    (ep.f_symtab_sect_strings_sect_index ≠ 0 →
      (ep.f_symtab_sect_strings_max > fileSize ep ∨
        (ep.f_shdr.getD ep.f_symtab_sect_strings_sect_index
          default).gh_offset > fileSize ep ∨
        ep.f_symtab_sect_strings_max +
          (ep.f_shdr.getD ep.f_symtab_sect_strings_sect_index
            default).gh_offset > fileSize ep) →
      _dwarf_load_elf_symstr ep =
        (.error DW_DLE_SECTION_SIZE_OR_OFFSET_LARGE, ep)) ∧
    ((_dwarf_load_elf_symstr ep).1 = .ok →
      ep.f_symtab_sect_strings_sect_index = 0 ∨
      ((ep.f_shdr.getD ep.f_symtab_sect_strings_sect_index
          default).gh_offset ≤ fileSize ep ∧
        ep.f_symtab_sect_strings_max ≤ fileSize ep ∧
        (ep.f_shdr.getD ep.f_symtab_sect_strings_sect_index
            default).gh_offset +
          ep.f_symtab_sect_strings_max ≤ fileSize ep)) ∧
    (∀ secnum r z,
      (ep.f_shdr.getD secnum default).gh_size ≠ 0 →
      ((ep.f_shdr.getD secnum default).gh_offset > fileSize ep ∨
        (ep.f_shdr.getD secnum default).gh_size > fileSize ep ∨
        (ep.f_shdr.getD secnum default).gh_offset +
          (ep.f_shdr.getD secnum default).gh_size > fileSize ep) →
      _dwarf_elf_load_a_relx_batch ep secnum r z =
        (.error DW_DLE_SECTION_SIZE_OR_OFFSET_LARGE, ep, 0)) ∧
    (∀ secnum r z, (_dwarf_elf_load_a_relx_batch ep secnum r z).1 = .ok →
      (ep.f_shdr.getD secnum default).gh_offset ≤ fileSize ep ∧
      (ep.f_shdr.getD secnum default).gh_size ≤ fileSize ep ∧
      (ep.f_shdr.getD secnum default).gh_offset +
        (ep.f_shdr.getD secnum default).gh_size ≤ fileSize ep) := by
  refine ⟨?_, ?_, ?_, ?_, ?_, ?_⟩
  · intro ss h1 h2 h3
    unfold _dwarf_elf_load_sectstrings
    simp only [fileSize] at h3 ⊢
    rw [if_neg (by omega), h2]
    simp only [Bool.false_eq_true, if_false]
    rw [if_pos (by omega)]
  · intro ss hok
    unfold _dwarf_elf_load_sectstrings at hok
    simp only [fileSize] at hok ⊢
    split at hok
    · simp at hok
    · split at hok
      · simp at hok
      · split at hok
        · simp at hok
        · rename_i hbound
          omega
  · intro h0 hb
    unfold _dwarf_load_elf_symstr
    simp only [fileSize] at hb ⊢
    rw [if_neg h0, if_pos (by omega)]
  · intro hok
    unfold _dwarf_load_elf_symstr at hok
    simp only [fileSize] at hok ⊢
    split at hok
    · left
      assumption
    · right
      split at hok
      · simp at hok
      · rename_i hbound
        omega
  · intro secnum r z hsz hb
    unfold _dwarf_elf_load_a_relx_batch
    simp only [fileSize] at hb ⊢
    rw [if_neg hsz, if_pos (by omega)]
  · intro secnum r z hok
    unfold _dwarf_elf_load_a_relx_batch at hok
    simp only [fileSize] at hok ⊢
    split at hok
    · simp at hok
    · split at hok
      · simp at hok
      · rename_i hbound
        omega

theorem claim_C4_witness :
    _dwarf_elf_load_sectstrings epW4 1 =
      (.error DW_DLE_SECTION_SIZE_OR_OFFSET_LARGE,
        { epW4 with f_elf_shstrings_length := 0 }) ∧
    _dwarf_load_elf_symstr epW4 =
      (.error DW_DLE_SECTION_SIZE_OR_OFFSET_LARGE, epW4) ∧
    _dwarf_elf_load_a_relx_batch epW4 1 RelocRela.RelocIsRel
        RelocOffsetSize.RelocOffset32 =
      (.error DW_DLE_SECTION_SIZE_OR_OFFSET_LARGE, epW4, 0) := by
  have h := claim_C4_bounds_checked_before_read epW4
  exact ⟨h.1 1 (by decide) (by decide) (by decide),
    h.2.2.1 (by decide) (by decide),
    h.2.2.2.2.1 1 RelocRela.RelocIsRel RelocOffsetSize.RelocOffset32
      (by decide) (by decide)⟩

/-! ## Claim C9 -/

/-- Helper for C9: a successful rela32 conversion delivers exactly
size / recordsize entries. -/
theorem generic_rel_from_rela32_length (ep : ElfState) (gsh : GShdr)
    (bytes : List Nat) (l : List GRela)
    (h : generic_rel_from_rela32 ep gsh bytes = .ok l) :
    l.length = gsh.gh_size / sizeof_dw_elf32_rela := by
  unfold generic_rel_from_rela32 at h
  simp only [ne_eq] at h
  by_cases hsz : gsh.gh_size =
      gsh.gh_size / sizeof_dw_elf32_rela * sizeof_dw_elf32_rela
  · rw [if_neg (not_not_intro hsz)] at h
    cases h
    simp
  · rw [if_pos hsz] at h
    cases h

/-- Helper for C9, as above for rel32. -/
theorem generic_rel_from_rel32_length (ep : ElfState) (gsh : GShdr)
    (bytes : List Nat) (l : List GRela)
    (h : generic_rel_from_rel32 ep gsh bytes = .ok l) :
    l.length = gsh.gh_size / sizeof_dw_elf32_rel := by
  unfold generic_rel_from_rel32 at h
  simp only [ne_eq] at h
  by_cases hsz : gsh.gh_size =
      gsh.gh_size / sizeof_dw_elf32_rel * sizeof_dw_elf32_rel
  · rw [if_neg (not_not_intro hsz)] at h
    cases h
    simp
  · rw [if_pos hsz] at h
    cases h

/-- Helper for C9, as above for rela64. -/
theorem generic_rel_from_rela64_length (ep : ElfState) (gsh : GShdr)
    (bytes : List Nat) (l : List GRela)
    (h : generic_rel_from_rela64 ep gsh bytes = .ok l) :
    l.length = gsh.gh_size / sizeof_dw_elf64_rela := by
  unfold generic_rel_from_rela64 at h
  simp only [ne_eq] at h
  by_cases hsz : gsh.gh_size =
      gsh.gh_size / sizeof_dw_elf64_rela * sizeof_dw_elf64_rela
  · rw [if_neg (not_not_intro hsz)] at h
    cases h
    simp
  · rw [if_pos hsz] at h
    cases h

/-- Helper for C9, as above for rel64. -/
theorem generic_rel_from_rel64_length (ep : ElfState) (gsh : GShdr)
    (bytes : List Nat) (l : List GRela)
    (h : generic_rel_from_rel64 ep gsh bytes = .ok l) :
    l.length = gsh.gh_size / sizeof_dw_elf64_rel := by
  unfold generic_rel_from_rel64 at h
  simp only [ne_eq] at h
  by_cases hsz : gsh.gh_size =
      gsh.gh_size / sizeof_dw_elf64_rel * sizeof_dw_elf64_rel
  · rw [if_neg (not_not_intro hsz)] at h
    cases h
    simp
  · rw [if_pos hsz] at h
    cases h

/-- Claim C9: symbol-table and relocation decoding succeeds only when
the section size is an exact multiple of the per-record size; a
non-multiple size yields ERROR with DW_DLE_SECTION_SIZE_ERROR (for the
relocation batch, once the bounds check has passed), and on success the
delivered count is size divided by the record size: the symbol loaders
deliver exactly that many entries, and the relocation batch stores that
count and a list of that length on the section. -/
theorem claim_C9_exact_record_multiples (ep : ElfState) :
    (∀ offset size, size % sizeof_dw_elf32_sym ≠ 0 →
      dwarf_generic_elf_load_symbols32 ep offset size =
        (.error DW_DLE_SECTION_SIZE_ERROR, [], 0)) ∧
    (∀ offset size syms cnt,
      dwarf_generic_elf_load_symbols32 ep offset size = (.ok, syms, cnt) →
      size % sizeof_dw_elf32_sym = 0 ∧
      cnt = size / sizeof_dw_elf32_sym ∧ syms.length = cnt) ∧
    (∀ offset size, size % sizeof_dw_elf64_sym ≠ 0 →
      dwarf_generic_elf_load_symbols64 ep offset size =
        (.error DW_DLE_SECTION_SIZE_ERROR, [], 0)) ∧
    (∀ offset size syms cnt,
      dwarf_generic_elf_load_symbols64 ep offset size = (.ok, syms, cnt) →
      size % sizeof_dw_elf64_sym = 0 ∧
      cnt = size / sizeof_dw_elf64_sym ∧ syms.length = cnt) ∧
    (∀ secnum r z,
      (ep.f_shdr.getD secnum default).gh_size ≠ 0 →
      (ep.f_shdr.getD secnum default).gh_offset ≤ fileSize ep →
      (ep.f_shdr.getD secnum default).gh_size ≤ fileSize ep →
      (ep.f_shdr.getD secnum default).gh_offset +
        (ep.f_shdr.getD secnum default).gh_size ≤ fileSize ep →
      (ep.f_shdr.getD secnum default).gh_size % relx_reclen r z ≠ 0 →
      _dwarf_elf_load_a_relx_batch ep secnum r z =
        (.error DW_DLE_SECTION_SIZE_ERROR, ep, 0)) ∧
    (∀ secnum r z ep2 cnt,
      _dwarf_elf_load_a_relx_batch ep secnum r z = (.ok, ep2, cnt) →
      (ep.f_shdr.getD secnum default).gh_size % relx_reclen r z = 0 ∧
      cnt = (ep.f_shdr.getD secnum default).gh_size / relx_reclen r z ∧
      (ep2.f_shdr.getD secnum default).gh_relcount = cnt ∧
      ∃ l, (ep2.f_shdr.getD secnum default).gh_rels = some l ∧
        l.length = cnt) := by
  refine ⟨?_, ?_, ?_, ?_, ?_, ?_⟩
  · intro offset size hmod
    unfold dwarf_generic_elf_load_symbols32
    rw [if_pos (by unfold sizeof_dw_elf32_sym at hmod ⊢; omega)]
  · intro offset size syms cnt hok
    unfold dwarf_generic_elf_load_symbols32 at hok
    unfold sizeof_dw_elf32_sym at hok ⊢
    simp only [ne_eq] at hok
    by_cases hsz : size = size / 16 * 16
    · rw [if_neg (not_not_intro hsz)] at hok
      cases hR : RRMOA ep.f_file offset size with
      | error c =>
        rw [hR] at hok
        simp at hok
      | ok bytes =>
        rw [hR] at hok
        simp only [Prod.mk.injEq] at hok
        obtain ⟨-, hsyms, hcnt⟩ := hok
        refine ⟨by omega, by omega, ?_⟩
        rw [← hsyms, ← hcnt]
        simp
    · rw [if_pos hsz] at hok
      simp at hok
  · intro offset size hmod
    unfold dwarf_generic_elf_load_symbols64
    rw [if_pos (by unfold sizeof_dw_elf64_sym at hmod ⊢; omega)]
  · intro offset size syms cnt hok
    unfold dwarf_generic_elf_load_symbols64 at hok
    unfold sizeof_dw_elf64_sym at hok ⊢
    simp only [ne_eq] at hok
    by_cases hsz : size = size / 24 * 24
    · rw [if_neg (not_not_intro hsz)] at hok
      cases hR : RRMOA ep.f_file offset size with
      | error c =>
        rw [hR] at hok
        simp at hok
      | ok bytes =>
        rw [hR] at hok
        simp only [Prod.mk.injEq] at hok
        obtain ⟨-, hsyms, hcnt⟩ := hok
        refine ⟨by omega, by omega, ?_⟩
        rw [← hsyms, ← hcnt]
        simp
    · rw [if_pos hsz] at hok
      simp at hok
  · intro secnum r z hsz hb1 hb2 hb3 hmod
    unfold _dwarf_elf_load_a_relx_batch
    rw [if_neg hsz, if_neg (by omega)]
    simp only [ne_eq]
    by_cases hc : (ep.f_shdr.getD secnum default).gh_size =
        (ep.f_shdr.getD secnum default).gh_size / relx_reclen r z *
          relx_reclen r z
    · exfalso
      cases r <;> cases z <;>
        simp only [relx_reclen, sizeof_dw_elf32_rela, sizeof_dw_elf32_rel,
          sizeof_dw_elf64_rela, sizeof_dw_elf64_rel] at hmod hc <;> omega
    · rw [if_pos hc]
  · intro secnum r z ep2 cnt hok
    have hlen : secnum < ep.f_shdr.length := by
      by_contra hge
      have hd : ep.f_shdr.getD secnum default = default :=
        List.getD_eq_default _ _ (by omega)
      unfold _dwarf_elf_load_a_relx_batch at hok
      simp only [hd] at hok
      rw [show (default : GShdr).gh_size = 0 from rfl] at hok
      simp at hok
    unfold _dwarf_elf_load_a_relx_batch at hok
    simp only [ne_eq] at hok
    split at hok
    · simp at hok
    · split at hok
      · simp at hok
      · by_cases hsz : (ep.f_shdr.getD secnum default).gh_size =
            (ep.f_shdr.getD secnum default).gh_size / relx_reclen r z *
              relx_reclen r z
        · rw [if_neg (not_not_intro hsz)] at hok
          split at hok
          · simp at hok
          · rename_i bytes hR
            split at hok
            · simp at hok
            · rename_i grel hC
              simp only [Prod.mk.injEq] at hok
              obtain ⟨-, hep2, hcnt⟩ := hok
              subst hep2
              subst hcnt
              have hmodz : (ep.f_shdr.getD secnum default).gh_size %
                  relx_reclen r z = 0 := by
                cases r <;> cases z <;>
                  simp only [relx_reclen, sizeof_dw_elf32_rela,
                    sizeof_dw_elf32_rel, sizeof_dw_elf64_rela,
                    sizeof_dw_elf64_rel] at hsz ⊢ <;> omega
              have hglen : grel.length =
                  (ep.f_shdr.getD secnum default).gh_size /
                    relx_reclen r z := by
                cases r <;> cases z
                · exact generic_rel_from_rela32_length ep _ bytes grel hC
                · exact generic_rel_from_rela64_length ep _ bytes grel hC
                · exact generic_rel_from_rel32_length ep _ bytes grel hC
                · exact generic_rel_from_rel64_length ep _ bytes grel hC
              refine ⟨hmodz, rfl, ?_, grel, ?_, hglen⟩
              · simp only []
                rw [getD_set_self _ _ _ _ hlen]
              · simp only []
                rw [getD_set_self _ _ _ _ hlen]
        · rw [if_pos hsz] at hok
          simp at hok

theorem claim_C9_witness :
    (17 % sizeof_dw_elf32_sym ≠ 0 ∧
      dwarf_generic_elf_load_symbols32 epW9 0 17 =
        (.error DW_DLE_SECTION_SIZE_ERROR, [], 0)) ∧
    ((epW9.f_shdr.getD 1 default).gh_size % relx_reclen
        RelocRela.RelocIsRela RelocOffsetSize.RelocOffset32 = 0 ∧
      (_dwarf_elf_load_a_relx_batch epW9 1 RelocRela.RelocIsRela
          RelocOffsetSize.RelocOffset32).2.2 =
        (epW9.f_shdr.getD 1 default).gh_size / relx_reclen
          RelocRela.RelocIsRela RelocOffsetSize.RelocOffset32) :=
  ⟨⟨by decide, (claim_C9_exact_record_multiples epW9).1 0 17 (by decide)⟩,
    (fun h => ⟨h.1, h.2.1⟩)
      ((claim_C9_exact_record_multiples epW9).2.2.2.2.2 1
        RelocRela.RelocIsRela RelocOffsetSize.RelocOffset32
        (_dwarf_elf_load_a_relx_batch epW9 1 RelocRela.RelocIsRela
          RelocOffsetSize.RelocOffset32).2.1
        (_dwarf_elf_load_a_relx_batch epW9 1 RelocRela.RelocIsRela
          RelocOffsetSize.RelocOffset32).2.2 (by decide))⟩

/-! ## Claim C5 -/

/-- Helper: an element of a drop-take slice is the shifted element. -/
theorem getD_drop_take (l : List Nat) (a b k d : Nat) (hk : k < b) :
    ((l.drop a).take b).getD k d = l.getD (a + k) d := by
  simp [List.getD_eq_getElem?_getD, List.getElem?_take, hk,
    List.getElem?_drop]

/-- Claim C5: in 64-bit REL and RELA record decoding (records are 16
and 24 bytes; r_info is the eight bytes at record offset 8), an EM_MIPS
little-endian object assembles the symbol index from the first four
bytes of r_info and takes the three type fields from r_info bytes 7, 6
and 5 (record bytes 15, 14, 13); an EM_SPARCV9 object takes the symbol
from the first four bytes of r_info and the type from r_info byte 7;
for every other machine the symbol is r_info shifted right 32 bits and
the type is r_info masked with 0xffffffff. -/
theorem claim_C5_machine_specific_r_info (ep : ElfState) (rec : List Nat) :
    (ep.f_machine = EM_MIPS → ep.f_endian = DW_OBJECT_LSB →
      ((rela64_entry ep rec).gr_sym = asnar true ((rec.drop 8).take 4) ∧
        (rela64_entry ep rec).gr_type = rec.getD 15 0 ∧
        (rela64_entry ep rec).gr_type2 = rec.getD 14 0 ∧
        (rela64_entry ep rec).gr_type3 = rec.getD 13 0) ∧
      ((rel64_entry ep rec).gr_sym = asnar true ((rec.drop 8).take 4) ∧
        (rel64_entry ep rec).gr_type = rec.getD 15 0 ∧
        (rel64_entry ep rec).gr_type2 = rec.getD 14 0 ∧
        (rel64_entry ep rec).gr_type3 = rec.getD 13 0)) ∧
    (ep.f_machine = EM_SPARCV9 →
      ((rela64_entry ep rec).gr_sym = copyWord ep ((rec.drop 8).take 4) ∧
        (rela64_entry ep rec).gr_type = rec.getD 15 0) ∧
      ((rel64_entry ep rec).gr_sym = copyWord ep ((rec.drop 8).take 4) ∧
        (rel64_entry ep rec).gr_type = rec.getD 15 0)) ∧
    (ep.f_machine ≠ EM_MIPS → ep.f_machine ≠ EM_SPARCV9 →
      ((rela64_entry ep rec).gr_sym =
          copyWord ep ((rec.drop 8).take 8) / 2 ^ 32 ∧
        (rela64_entry ep rec).gr_type =
          copyWord ep ((rec.drop 8).take 8) % 2 ^ 32) ∧
      ((rel64_entry ep rec).gr_sym =
          copyWord ep ((rec.drop 8).take 8) / 2 ^ 32 ∧
        (rel64_entry ep rec).gr_type =
          copyWord ep ((rec.drop 8).take 8) % 2 ^ 32)) := by
  have htk : ((rec.drop 8).take 8).take 4 = (rec.drop 8).take 4 := by
    rw [List.take_take, show (4 : Nat) ⊓ 8 = 4 by decide]
  have h15 : ((rec.drop 8).take 8).getD 7 0 = rec.getD 15 0 :=
    getD_drop_take rec 8 8 7 0 (by omega)
  have h14 : ((rec.drop 8).take 8).getD 6 0 = rec.getD 14 0 :=
    getD_drop_take rec 8 8 6 0 (by omega)
  have h13 : ((rec.drop 8).take 8).getD 5 0 = rec.getD 13 0 :=
    getD_drop_take rec 8 8 5 0 (by omega)
  refine ⟨?_, ?_, ?_⟩
  · intro hm he
    have hobj : objLE ep = true := by simp [objLE, he, DW_OBJECT_LSB]
    constructor
    · unfold rela64_entry
      rw [if_pos (by simp [hm, he, EM_MIPS, DW_OBJECT_LSB])]
      simp [copyWord, hobj, htk, h15, h14, h13]
    · unfold rel64_entry
      rw [if_pos (by simp [hm, he, EM_MIPS, DW_OBJECT_LSB])]
      simp [copyWord, hobj, htk, h15, h14, h13]
  · intro hm
    have hnm : (ep.f_machine == EM_MIPS) = false := by
      simp [hm, EM_MIPS, EM_SPARCV9]
    constructor
    · unfold rela64_entry
      rw [if_neg (by simp [hnm]), if_pos (by simp [hm])]
      simp [copyWord, htk, h15]
    · unfold rel64_entry
      rw [if_neg (by simp [hnm]), if_pos (by simp [hm])]
      simp [copyWord, htk, h15]
  · intro hm hs
    have hnm : (ep.f_machine == EM_MIPS) = false := by simp [hm]
    have hns : (ep.f_machine == EM_SPARCV9) = false := by simp [hs]
    have hdiv : ∀ a : Nat, a >>> 32 = a / 2 ^ 32 :=
      fun a => Nat.shiftRight_eq_div_pow a 32
    have hmod : ∀ a : Nat, a &&& 0xffffffff = a % 2 ^ 32 :=
      fun a => Nat.and_pow_two_sub_one_eq_mod a 32
    constructor
    · unfold rela64_entry
      rw [if_neg (by simp [hnm]), if_neg (by simp [hns])]
      simp only [copyWord]
      exact ⟨hdiv _, hmod _⟩
    · unfold rel64_entry
      rw [if_neg (by simp [hnm]), if_neg (by simp [hns])]
      simp only [copyWord]
      exact ⟨hdiv _, hmod _⟩

theorem claim_C5_witness :
    ((rela64_entry epW5m recW5).gr_sym = asnar true [8, 9, 10, 11] ∧
      (rela64_entry epW5m recW5).gr_type = 15 ∧
      (rela64_entry epW5m recW5).gr_type2 = 14 ∧
      (rela64_entry epW5m recW5).gr_type3 = 13) ∧
    ((rela64_entry epW5s recW5).gr_sym = copyWord epW5s [8, 9, 10, 11] ∧
      (rela64_entry epW5s recW5).gr_type = 15) ∧
    ((rel64_entry epW5o recW5).gr_sym =
        copyWord epW5o ((recW5.drop 8).take 8) / 2 ^ 32 ∧
      (rel64_entry epW5o recW5).gr_type =
        copyWord epW5o ((recW5.drop 8).take 8) % 2 ^ 32) := by
  refine ⟨?_, ?_, ?_⟩
  · have h := ((claim_C5_machine_specific_r_info epW5m recW5).1
      (by decide) (by decide)).1
    exact ⟨by rw [h.1]; decide, by rw [h.2.1]; decide,
      by rw [h.2.2.1]; decide, by rw [h.2.2.2]; decide⟩
  · have h := ((claim_C5_machine_specific_r_info epW5s recW5).2.1
      (by decide)).1
    exact ⟨by rw [h.1]; decide, by rw [h.2]; decide⟩
  · exact ((claim_C5_machine_specific_r_info epW5o recW5).2.2
      (by decide) (by decide)).2

/-! ## Claim C6 -/

/-- Helper: has_nul finds a NUL exactly when a NUL byte is present. -/
theorem has_nul_iff (bs : List Nat) :
    has_nul bs = true ↔ ∃ k, k < bs.length ∧ bs.getD k 1 = 0 := by
  induction bs with
  | nil => simp [has_nul]
  | cons b rest ih =>
    unfold has_nul
    by_cases hb : b = 0
    · rw [if_pos hb]
      simp only [true_iff]
      exact ⟨0, by simp, by simp [hb]⟩
    · rw [if_neg hb, ih]
      constructor
      · rintro ⟨k, hk, hz⟩
        exact ⟨k + 1, by simp; omega, by simpa using hz⟩
      · rintro ⟨k, hk, hz⟩
        match k with
        | 0 => exact absurd (by simpa using hz) hb
        | k + 1 =>
          exact ⟨k, by simp at hk; omega, by simpa using hz⟩

/-- Claim C6: a section-name string offset is accepted exactly when it
is strictly below the string-section length and a NUL byte occurs at or
after the offset and before the end of the section; any rejection is
ERROR with DW_DLE_SECTION_STRING_OFFSET_BAD; and the name-resolution
walk over the section table stops at the first invalid name, storing
the placeholder there, resolving every earlier name and leaving later
sections untouched. -/
theorem claim_C6_name_string_validation :
    (∀ len idx strings, len ≤ List.length strings →
      (validate_section_name_string len idx strings = .ok ↔
        (idx < len ∧ ∃ j, idx ≤ j ∧ j < len ∧ strings.getD j 1 = 0))) ∧
    (∀ len idx strings,
      validate_section_name_string len idx strings ≠ .ok →
      validate_section_name_string len idx strings =
        .error DW_DLE_SECTION_STRING_OFFSET_BAD) ∧
    (∀ ep i, i < ep.f_shdr.length →
      (∀ k, k < i → validate_section_name_string ep.f_elf_shstrings_length
        (ep.f_shdr.getD k default).gh_name ep.f_elf_shstrings_data = .ok) →
      validate_section_name_string ep.f_elf_shstrings_length
        (ep.f_shdr.getD i default).gh_name ep.f_elf_shstrings_data ≠ .ok →
      (_dwarf_elf_load_sect_namestring ep).1 =
        .error DW_DLE_SECTION_STRING_OFFSET_BAD ∧
      ((_dwarf_elf_load_sect_namestring ep).2.f_shdr.getD i
          default).gh_namestring = invalid_sh_name_text ∧
      (∀ k, k < i →
        ((_dwarf_elf_load_sect_namestring ep).2.f_shdr.getD k
            default).gh_namestring =
          cstring_at ep.f_elf_shstrings_data
            (ep.f_shdr.getD k default).gh_name) ∧
      (∀ k, i < k →
        (_dwarf_elf_load_sect_namestring ep).2.f_shdr.getD k default =
          ep.f_shdr.getD k default)) := by
  have hval : ∀ len idx strings, len ≤ List.length strings →
      (validate_section_name_string len idx strings = .ok ↔
        (idx < len ∧ ∃ j, idx ≤ j ∧ j < len ∧ strings.getD j 1 = 0)) := by
    intro len idx strings hlen
    unfold validate_section_name_string
    by_cases hle : len ≤ idx
    · rw [if_pos hle]
      constructor
      · intro h
        cases h
      · rintro ⟨h1, -⟩
        omega
    · rw [if_neg hle]
      have hslice : ((strings.drop idx).take (len - idx)).length =
          len - idx := by
        simp
        omega
      by_cases hz : has_nul ((strings.drop idx).take (len - idx)) = true
      · rw [if_pos hz]
        simp only [true_iff]
        refine ⟨by omega, ?_⟩
        obtain ⟨k, hk, hkz⟩ := (has_nul_iff _).mp hz
        rw [hslice] at hk
        refine ⟨idx + k, by omega, by omega, ?_⟩
        rw [← getD_drop_take strings idx (len - idx) k 1 hk]
        exact hkz
      · rw [if_neg hz]
        constructor
        · intro h
          cases h
        · rintro ⟨-, j, hj1, hj2, hj3⟩
          exfalso
          apply hz
          rw [has_nul_iff]
          refine ⟨j - idx, by rw [hslice]; omega, ?_⟩
          rw [getD_drop_take strings idx (len - idx) (j - idx) 1 (by omega)]
          rw [show idx + (j - idx) = j by omega]
          exact hj3
  have hnotok : ∀ len idx strings,
      validate_section_name_string len idx strings ≠ .ok →
      validate_section_name_string len idx strings =
        .error DW_DLE_SECTION_STRING_OFFSET_BAD := by
    intro len idx strings h
    unfold validate_section_name_string at h ⊢
    by_cases h1 : len ≤ idx
    · rw [if_pos h1]
    · rw [if_neg h1] at h ⊢
      by_cases h2 : has_nul ((strings.drop idx).take (len - idx)) = true
      · rw [if_pos h2] at h
        exact absurd rfl h
      · rw [if_neg h2]
  have hloop : ∀ (secs : List GShdr) (i : Nat) (shstrlen : Nat)
      (base : List Nat), i < secs.length →
      (∀ k, k < i → validate_section_name_string shstrlen
        ((secs.getD k default).gh_name) base = .ok) →
      validate_section_name_string shstrlen
        ((secs.getD i default).gh_name) base ≠ .ok →
      (load_sect_namestring_loop shstrlen base secs).1 =
        .error DW_DLE_SECTION_STRING_OFFSET_BAD ∧
      ((load_sect_namestring_loop shstrlen base secs).2.getD i
          default).gh_namestring = invalid_sh_name_text ∧
      (∀ k, k < i →
        ((load_sect_namestring_loop shstrlen base secs).2.getD k
            default).gh_namestring =
          cstring_at base ((secs.getD k default).gh_name)) ∧
      (∀ k, i < k →
        (load_sect_namestring_loop shstrlen base secs).2.getD k default =
          secs.getD k default) := by
    intro secs
    induction secs with
    | nil =>
      intro i shstrlen base hi
      simp at hi
    | cons hd tl ih =>
      intro i shstrlen base hi hprev hbad
      match i with
      | 0 =>
        have hbad0 : validate_section_name_string shstrlen hd.gh_name base ≠
            .ok := by simpa using hbad
        have herr := hnotok _ _ _ hbad0
        unfold load_sect_namestring_loop
        rw [herr]
        refine ⟨rfl, by simp, ?_, ?_⟩
        · intro k hk
          omega
        · intro k hk
          match k with
          | kk + 1 => simp
      | j + 1 =>
        have hhd : validate_section_name_string shstrlen hd.gh_name base =
            .ok := by simpa using hprev 0 (by omega)
        have ihr := ih j shstrlen base (by simpa using hi)
          (fun k hk => by simpa using hprev (k + 1) (by omega))
          (by simpa using hbad)
        unfold load_sect_namestring_loop
        rw [hhd]
        refine ⟨by simpa using ihr.1, by simpa using ihr.2.1, ?_, ?_⟩
        · intro k hk
          match k with
          | 0 => simp
          | kk + 1 =>
            simpa using ihr.2.2.1 kk (by omega)
        · intro k hk
          match k with
          | kk + 1 =>
            simpa using ihr.2.2.2 kk (by omega)
  refine ⟨hval, hnotok, ?_⟩
  intro ep i hi hprev hbad
  unfold _dwarf_elf_load_sect_namestring
  exact hloop ep.f_shdr i ep.f_elf_shstrings_length
    ep.f_elf_shstrings_data hi hprev hbad

theorem claim_C6_witness :
    (validate_section_name_string 2 0 [0, 65] = .ok ↔
      (0 < 2 ∧ ∃ j, 0 ≤ j ∧ j < 2 ∧ [0, 65].getD j 1 = 0)) ∧
    ((_dwarf_elf_load_sect_namestring epW6).1 =
        .error DW_DLE_SECTION_STRING_OFFSET_BAD ∧
      ((_dwarf_elf_load_sect_namestring epW6).2.f_shdr.getD 1
          default).gh_namestring = invalid_sh_name_text ∧
      (_dwarf_elf_load_sect_namestring epW6).2.f_shdr.getD 2 default =
        epW6.f_shdr.getD 2 default) :=
  ⟨(claim_C6_name_string_validation).1 2 0 [0, 65] (by decide),
    (fun h => ⟨h.1, h.2.1, h.2.2.2 2 (by decide)⟩)
      ((claim_C6_name_string_validation).2.2 epW6 1 (by decide)
        (fun k hk => by
          match k with
          | 0 => decide)
        (by decide))⟩

/-! ## SHT_GROUP payload loop lemmas (shared by C2 and C3) -/

/-- The payload-entry loop only rewrites section records: byte order,
section count, section-list length, next group number and file bytes
are unchanged whatever it returns. -/
theorem gs_group_loop_shape (data : List Nat) (is : List Nat) :
    ∀ (acc : List Nat) (f : Bool) (ep : ElfState) (r : DwRes)
      (ep2 : ElfState) (arr : List Nat) (f2 : Bool),
      gs_group_loop data ep is acc f = (r, ep2, arr, f2) →
      ep2.f_hostle = ep.f_hostle ∧
      ep2.f_loc_shdr_count = ep.f_loc_shdr_count ∧
      ep2.f_shdr.length = ep.f_shdr.length ∧
      ep2.f_sg_next_group_number = ep.f_sg_next_group_number ∧
      ep2.f_file = ep.f_file := by
  induction is with
  | nil =>
    intro acc f ep r ep2 arr f2 h
    simp only [gs_group_loop] at h
    cases h
    exact ⟨rfl, rfl, rfl, rfl, rfl⟩
  | cons i rest ih =>
    intro acc f ep r ep2 arr f2 h
    simp only [gs_group_loop] at h
    split at h
    · cases h
      exact ⟨rfl, rfl, rfl, rfl, rfl⟩
    · split at h
      · cases h
        exact ⟨rfl, rfl, rfl, rfl, rfl⟩
      · split at h
        · split at h
          · cases h
            exact ⟨rfl, rfl, rfl, rfl, rfl⟩
          · simpa using ih _ _ _ _ _ _ _ h
        · split at h
          · cases h
            exact ⟨rfl, rfl, rfl, rfl, rfl⟩
          · simpa using ih _ _ _ _ _ _ _ h

/-- When the loop succeeds, every processed entry had a nonzero native
value with at least one in-range interpretation, and the grouparray
extends the accumulator with the selected section numbers. -/
theorem gs_group_loop_ok_entries (data : List Nat) (is : List Nat) :
    ∀ (acc : List Nat) (f : Bool) (ep ep2 : ElfState) (arr : List Nat)
      (f2 : Bool),
      gs_group_loop data ep is acc f = (.ok, ep2, arr, f2) →
      (∀ j ∈ is, gsNative ep.f_hostle data j ≠ 0 ∧
        (gsNative ep.f_hostle data j ≤ ep.f_loc_shdr_count ∨
          gsSwapped ep.f_hostle data j ≤ ep.f_loc_shdr_count)) ∧
      arr = acc ++ is.map (gsSelect ep.f_hostle ep.f_loc_shdr_count data) := by
  induction is with
  | nil =>
    intro acc f ep ep2 arr f2 h
    simp only [gs_group_loop] at h
    cases h
    simp
  | cons i rest ih =>
    intro acc f ep ep2 arr f2 h
    simp only [gs_group_loop] at h
    split at h
    · simp at h
    · split at h
      · simp at h
      · rename_i h1 h2
        split at h
        · rename_i hgt
          split at h
          · simp at h
          · have hrec := ih _ _ _ _ _ _ h
            constructor
            · intro j hj
              rcases List.mem_cons.mp hj with hj | hj
              · subst hj
                exact ⟨h1, by omega⟩
              · simpa using hrec.1 j hj
            · rw [hrec.2]
              simp [gsSelect, hgt, List.append_assoc]
        · rename_i hle
          split at h
          · simp at h
          · have hrec := ih _ _ _ _ _ _ h
            constructor
            · intro j hj
              rcases List.mem_cons.mp hj with hj | hj
              · subst hj
                exact ⟨h1, by omega⟩
              · simpa using hrec.1 j hj
            · rw [hrec.2]
              simp [gsSelect, hle, List.append_assoc]

/-- When the loop fails it fails with DW_DLE_ELF_SECTION_GROUP_ERROR,
and some processed entry was zero, out of range in both byte orders,
aimed at a section that was already in a group before the loop began,
or selected the same target section as another entry of the payload. -/
theorem gs_group_loop_error_entries (data : List Nat) (is : List Nat) :
    ∀ (acc : List Nat) (f : Bool) (ep ep2 : ElfState) (arr : List Nat)
      (f2 : Bool) (c : Nat),
      is.Nodup →
      gs_group_loop data ep is acc f = (.error c, ep2, arr, f2) →
      c = DW_DLE_ELF_SECTION_GROUP_ERROR ∧
      ∃ j ∈ is, (gsNative ep.f_hostle data j = 0 ∨
        (gsNative ep.f_hostle data j > ep.f_loc_shdr_count ∧
          gsSwapped ep.f_hostle data j > ep.f_loc_shdr_count) ∨
        (ep.f_shdr.getD (gsSelect ep.f_hostle ep.f_loc_shdr_count data j)
          default).gh_section_group_number ≠ 0 ∨
        ∃ j2 ∈ is, j2 ≠ j ∧
          gsSelect ep.f_hostle ep.f_loc_shdr_count data j2 =
            gsSelect ep.f_hostle ep.f_loc_shdr_count data j) := by
  induction is with
  | nil =>
    intro acc f ep ep2 arr f2 c hnd h
    simp only [gs_group_loop] at h
    simp at h
  | cons i rest ih =>
    intro acc f ep ep2 arr f2 c hnd hrun
    have hnd2 := List.nodup_cons.mp hnd
    simp only [gs_group_loop] at hrun
    split at hrun
    · rename_i h1
      cases hrun
      exact ⟨rfl, i, List.mem_cons_self i rest, Or.inl h1⟩
    · split at hrun
      · rename_i h1 h2
        cases hrun
        exact ⟨rfl, i, List.mem_cons_self i rest, Or.inr (Or.inl h2)⟩
      · rename_i h1 h2
        split at hrun
        · rename_i hgt
          split at hrun
          · rename_i h3
            cases hrun
            refine ⟨rfl, i, List.mem_cons_self i rest,
              Or.inr (Or.inr (Or.inl ?_))⟩
            simpa [gsSelect, hgt] using h3
          · have hrec := ih _ _ _ _ _ _ _ hnd2.2 hrun
            refine ⟨hrec.1, ?_⟩
            obtain ⟨j, hj, hd⟩ := hrec.2
            refine ⟨j, List.mem_cons_of_mem i hj, ?_⟩
            rcases hd with hd | hd | hd | hd
            · exact Or.inl (by simpa using hd)
            · exact Or.inr (Or.inl (by simpa using hd))
            · by_cases hts : gsSelect ep.f_hostle ep.f_loc_shdr_count
                  data j = gsSwapped ep.f_hostle data i
              · refine Or.inr (Or.inr (Or.inr
                  ⟨i, List.mem_cons_self i rest, ?_, ?_⟩))
                · intro he
                  exact hnd2.1 (he ▸ hj)
                · rw [hts]
                  simp [gsSelect, hgt]
              · have hd2 : ((ep.f_shdr.set (gsSwapped ep.f_hostle data i)
                    { ep.f_shdr.getD (gsSwapped ep.f_hostle data i)
                        default with
                      gh_section_group_number :=
                        ep.f_sg_next_group_number }).getD
                    (gsSelect ep.f_hostle ep.f_loc_shdr_count data j)
                    default).gh_section_group_number ≠ 0 := by
                  simpa using hd
                rw [getD_set_ne _ _ _ _ _ (fun he => hts he.symm)] at hd2
                exact Or.inr (Or.inr (Or.inl hd2))
            · obtain ⟨j2, hj2, hne, heq⟩ := hd
              refine Or.inr (Or.inr (Or.inr
                ⟨j2, List.mem_cons_of_mem i hj2, hne, by simpa using heq⟩))
        · rename_i hle
          split at hrun
          · rename_i h3
            cases hrun
            refine ⟨rfl, i, List.mem_cons_self i rest,
              Or.inr (Or.inr (Or.inl ?_))⟩
            simpa [gsSelect, hle] using h3
          · have hrec := ih _ _ _ _ _ _ _ hnd2.2 hrun
            refine ⟨hrec.1, ?_⟩
            obtain ⟨j, hj, hd⟩ := hrec.2
            refine ⟨j, List.mem_cons_of_mem i hj, ?_⟩
            rcases hd with hd | hd | hd | hd
            · exact Or.inl (by simpa using hd)
            · exact Or.inr (Or.inl (by simpa using hd))
            · by_cases hts : gsSelect ep.f_hostle ep.f_loc_shdr_count
                  data j = gsNative ep.f_hostle data i
              · refine Or.inr (Or.inr (Or.inr
                  ⟨i, List.mem_cons_self i rest, ?_, ?_⟩))
                · intro he
                  exact hnd2.1 (he ▸ hj)
                · rw [hts]
                  simp [gsSelect, hle]
              · have hd2 : ((ep.f_shdr.set (gsNative ep.f_hostle data i)
                    { ep.f_shdr.getD (gsNative ep.f_hostle data i)
                        default with
                      gh_section_group_number :=
                        ep.f_sg_next_group_number }).getD
                    (gsSelect ep.f_hostle ep.f_loc_shdr_count data j)
                    default).gh_section_group_number ≠ 0 := by
                  simpa using hd
                rw [getD_set_ne _ _ _ _ _ (fun he => hts he.symm)] at hd2
                exact Or.inr (Or.inr (Or.inl hd2))
            · obtain ⟨j2, hj2, hne, heq⟩ := hd
              refine Or.inr (Or.inr (Or.inr
                ⟨j2, List.mem_cons_of_mem i hj2, hne, by simpa using heq⟩))

theorem cleanSec_default : CleanSec default := ⟨rfl, Or.inl rfl⟩

theorem cleanSec_getD (l : List GShdr) (k : Nat)
    (h : ∀ sec ∈ l, CleanSec sec) : CleanSec (l.getD k default) := by
  by_cases hk : k < l.length
  · rw [List.getD_eq_getElem l default hk]
    exact h _ (List.getElem_mem hk)
  · rw [List.getD_eq_default _ _ (by omega)]
    exact cleanSec_default

/-- The payload loop keeps every section clean: it assigns the current
next-group number (at least 3) only to sections whose group was 0 and
never touches gh_is_dwarf. -/
theorem gs_group_loop_clean (data : List Nat) (is : List Nat) :
    ∀ (acc : List Nat) (f : Bool) (ep : ElfState) (r : DwRes)
      (ep2 : ElfState) (arr : List Nat) (f2 : Bool),
      gs_group_loop data ep is acc f = (r, ep2, arr, f2) →
      3 ≤ ep.f_sg_next_group_number →
      (∀ sec ∈ ep.f_shdr, CleanSec sec) →
      ∀ sec ∈ ep2.f_shdr, CleanSec sec := by
  induction is with
  | nil =>
    intro acc f ep r ep2 arr f2 h hnext hinv
    simp only [gs_group_loop] at h
    cases h
    exact hinv
  | cons i rest ih =>
    intro acc f ep r ep2 arr f2 h hnext hinv
    simp only [gs_group_loop] at h
    split at h
    · cases h
      exact hinv
    · split at h
      · cases h
        exact hinv
      · have hstep : ∀ (t : Nat),
            (∀ sec ∈ ep.f_shdr.set t
              { ep.f_shdr.getD t default with
                gh_section_group_number := ep.f_sg_next_group_number },
              CleanSec sec) := by
          intro t sec hs
          rcases List.mem_or_eq_of_mem_set hs with hs | hs
          · exact hinv sec hs
          · subst hs
            exact ⟨(cleanSec_getD ep.f_shdr t hinv).1, Or.inr hnext⟩
        split at h
        · split at h
          · cases h
            exact hinv
          · exact ih _ _ _ _ _ _ _ h hnext (hstep _)
        · split at h
          · cases h
            exact hinv
          · exact ih _ _ _ _ _ _ _ h hnext (hstep _)

/-- read_gs_section_group keeps every section clean, keeps the next
group number at least 3, and does not change the section count or the
length of the section list. -/
theorem read_gs_section_group_clean (ep : ElfState) (secnum : Nat)
    (r : DwRes) (ep2 : ElfState)
    (hrun : read_gs_section_group ep secnum = (r, ep2))
    (hnext : 3 ≤ ep.f_sg_next_group_number)
    (hinv : ∀ sec ∈ ep.f_shdr, CleanSec sec) :
    (∀ sec ∈ ep2.f_shdr, CleanSec sec) ∧
    3 ≤ ep2.f_sg_next_group_number ∧
    ep2.f_loc_shdr_count = ep.f_loc_shdr_count ∧
    ep2.f_shdr.length = ep.f_shdr.length := by
  unfold read_gs_section_group at hrun
  simp only [DWARF_32BIT_SIZE] at hrun
  split at hrun
  · cases hrun
    exact ⟨hinv, hnext, rfl, rfl⟩
  · split at hrun
    · cases hrun
      exact ⟨hinv, hnext, rfl, rfl⟩
    · split at hrun
      · cases hrun
        exact ⟨hinv, hnext, rfl, rfl⟩
      · split at hrun
        · cases hrun
          exact ⟨hinv, hnext, rfl, rfl⟩
        · split at hrun
          · cases hrun
            exact ⟨hinv, hnext, rfl, rfl⟩
          · split at hrun
            · cases hrun
              exact ⟨hinv, hnext, rfl, rfl⟩
            · split at hrun
              · cases hrun
                exact ⟨hinv, hnext, rfl, rfl⟩
              · split at hrun
                · rename_i lr ep3 arr f3 heq
                  have hcl := gs_group_loop_clean _ _ _ _ _ _ _ _ _
                    heq hnext hinv
                  have hsh := gs_group_loop_shape _ _ _ _ _ _ _ _ _ heq
                  cases f3
                  · simp only [Bool.false_eq_true, if_false] at hrun
                    cases hrun
                    refine ⟨?_, ?_, ?_, ?_⟩
                    · intro sec hs
                      rcases List.mem_or_eq_of_mem_set hs with hs2 | hs2
                      · exact hcl sec hs2
                      · subst hs2
                        exact ⟨(cleanSec_getD ep3.f_shdr secnum hcl).1,
                          (cleanSec_getD ep3.f_shdr secnum hcl).2⟩
                    · show 3 ≤ ep3.f_sg_next_group_number
                      have := hsh.2.2.2.1
                      omega
                    · show ep3.f_loc_shdr_count = ep.f_loc_shdr_count
                      exact hsh.2.1
                    · show (ep3.f_shdr.set secnum _).length = ep.f_shdr.length
                      rw [List.length_set]
                      exact hsh.2.2.1
                  · simp only [eq_self_iff_true, if_true] at hrun
                    cases hrun
                    refine ⟨?_, ?_, ?_, ?_⟩
                    · intro sec hs
                      rcases List.mem_or_eq_of_mem_set hs with hs2 | hs2
                      · exact hcl sec hs2
                      · subst hs2
                        exact ⟨(cleanSec_getD ep3.f_shdr secnum hcl).1,
                          (cleanSec_getD ep3.f_shdr secnum hcl).2⟩
                    · show 3 ≤ ep3.f_sg_next_group_number + 1
                      have := hsh.2.2.2.1
                      omega
                    · show ep3.f_loc_shdr_count = ep.f_loc_shdr_count
                      exact hsh.2.1
                    · show (ep3.f_shdr.set secnum _).length = ep.f_shdr.length
                      rw [List.length_set]
                      exact hsh.2.2.1
                · rename_i lr ep3 arr f3 hne heq
                  cases hrun
                  have hcl := gs_group_loop_clean _ _ _ _ _ _ _ _ _
                    heq hnext hinv
                  have hsh := gs_group_loop_shape _ _ _ _ _ _ _ _ _ heq
                  refine ⟨hcl, ?_, hsh.2.1, hsh.2.2.1⟩
                  have := hsh.2.2.2.1
                  omega

/-- Pass A (SHT_GROUP reading and SHF_GROUP counting) keeps every
section clean and preserves the section count and list length. -/
theorem setup_groups_passA_clean (is : List Nat) :
    ∀ (ep : ElfState) (r : DwRes) (ep2 : ElfState),
      setup_groups_passA ep is = (r, ep2) →
      3 ≤ ep.f_sg_next_group_number →
      (∀ sec ∈ ep.f_shdr, CleanSec sec) →
      (∀ sec ∈ ep2.f_shdr, CleanSec sec) ∧
      3 ≤ ep2.f_sg_next_group_number ∧
      ep2.f_loc_shdr_count = ep.f_loc_shdr_count ∧
      ep2.f_shdr.length = ep.f_shdr.length := by
  induction is with
  | nil =>
    intro ep r ep2 h hnext hinv
    simp only [setup_groups_passA] at h
    cases h
    exact ⟨hinv, hnext, rfl, rfl⟩
  | cons i rest ih =>
    intro ep r ep2 h hnext hinv
    simp only [setup_groups_passA] at h
    split at h
    · exact ih _ _ _ h hnext hinv
    · split at h
      · split at h
        · have hr := ih _ _ _ h hnext hinv
          exact ⟨hr.1, hr.2.1, hr.2.2.1, hr.2.2.2⟩
        · exact ih _ _ _ h hnext hinv
      · split at h
        · rename_i ep1 heq
          have hg := read_gs_section_group_clean _ _ _ _ heq hnext hinv
          have hr := ih _ _ _ h hg.2.1 hg.1
          refine ⟨hr.1, hr.2.1, ?_, ?_⟩
          · rw [hr.2.2.1, hg.2.2.1]
          · rw [hr.2.2.2, hg.2.2.2]
        · rename_i r1 ep1 hne heq
          cases h
          have hg := read_gs_section_group_clean _ _ _ _ heq hnext hinv
          exact hg

/-- Helper: an out-of-range getD is the default record, which has the
empty type SHT_NULL. -/
theorem getD_nonempty_lt (l : List GShdr) (i : Nat)
    (h : is_empty_section (l.getD i default).gh_type = false) :
    i < l.length := by
  by_contra hge
  rw [List.getD_eq_default _ _ (by omega)] at h
  exact absurd h (by decide)

/-- Pass C establishes GroupAssigned on every processed index,
maintains DwGrouped everywhere, and leaves unprocessed indices
untouched. -/
theorem setup_groups_passC_post (ign : String → Bool) (is : List Nat) :
    ∀ (ep ep2 : ElfState),
      setup_groups_passC ign ep is = (.ok, ep2) →
      is.Nodup →
      (∀ sec ∈ ep.f_shdr, DwGrouped sec) →
      (∀ j ∈ is, GroupFree (ep.f_shdr.getD j default)) →
      (∀ sec ∈ ep2.f_shdr, DwGrouped sec) ∧
      ep2.f_shdr.length = ep.f_shdr.length ∧
      (∀ j ∈ is, GroupAssigned ign (ep2.f_shdr.getD j default)) ∧
      (∀ j, j ∉ is → ep2.f_shdr.getD j default = ep.f_shdr.getD j default)
    := by
  induction is with
  | nil =>
    intro ep ep2 h hnd hD hA
    simp only [setup_groups_passC] at h
    cases h
    exact ⟨hD, rfl, by simp, fun j hj => rfl⟩
  | cons i rest ih =>
    intro ep ep2 h hnd hD hA
    have hnd2 := List.nodup_cons.mp hnd
    simp only [setup_groups_passC] at h
    split at h
    · rename_i hemp
      have hr := ih _ _ h hnd2.2 hD
        (fun j hj => hA j (List.mem_cons_of_mem i hj))
      refine ⟨hr.1, hr.2.1, ?_, ?_⟩
      · intro j hj
        rcases List.mem_cons.mp hj with hj | hj
        · subst hj
          rw [hr.2.2.2 j hnd2.1]
          intro h1 h2
          exact absurd (hemp.symm.trans h1) (by decide)
        · exact hr.2.2.1 j hj
      · intro j hj
        exact hr.2.2.2 j (fun hc => hj (List.mem_cons_of_mem i hc))
    · rename_i hemp
      split at h
      · rename_i hgrp
        have hr := ih _ _ h hnd2.2 hD
          (fun j hj => hA j (List.mem_cons_of_mem i hj))
        refine ⟨hr.1, hr.2.1, ?_, ?_⟩
        · intro j hj
          rcases List.mem_cons.mp hj with hj | hj
          · subst hj
            rw [hr.2.2.2 j hnd2.1]
            intro h1 h2
            exact absurd (hgrp.symm.trans h2) (by decide)
          · exact hr.2.2.1 j hj
        · intro j hj
          exact hr.2.2.2 j (fun hc => hj (List.mem_cons_of_mem i hc))
      · rename_i hgrp
        have hlt : i < ep.f_shdr.length := by
          apply getD_nonempty_lt
          rcases hb : is_empty_section (ep.f_shdr.getD i default).gh_type
          · rfl
          · exact absurd hb hemp
        split at h
        · rename_i hdwo
          split at h
          · simp at h
          · rename_i hz
            have hz0 : (ep.f_shdr.getD i default).gh_section_group_number
                = 0 := by omega
            have hDstep : ∀ sec ∈ ep.f_shdr.set i
                { ep.f_shdr.getD i default with
                  gh_is_dwarf := true
                  gh_section_group_number := DW_GROUPNUMBER_DWO },
                DwGrouped sec := by
              intro sec hs
              rcases List.mem_or_eq_of_mem_set hs with hs | hs
              · exact hD sec hs
              · subst hs
                intro h1
                show DW_GROUPNUMBER_DWO ≠ 0
                decide
            have hAstep : ∀ j ∈ rest, GroupFree
                ((ep.f_shdr.set i
                  { ep.f_shdr.getD i default with
                    gh_is_dwarf := true
                    gh_section_group_number := DW_GROUPNUMBER_DWO }).getD
                  j default) := by
              intro j hj
              rw [getD_set_ne _ _ _ _ _
                (fun he => hnd2.1 (by rw [he]; exact hj))]
              exact hA j (List.mem_cons_of_mem i hj)
            have hr := ih _ _ h hnd2.2 hDstep hAstep
            refine ⟨hr.1, by rw [hr.2.1]; simp, ?_, ?_⟩
            · intro j hj
              rcases List.mem_cons.mp hj with hj | hj
              · subst hj
                have hcur := hr.2.2.2 j hnd2.1
                rw [getD_set_self _ _ _ _ hlt] at hcur
                rw [hcur]
                intro h1 h2
                refine ⟨fun _ => ⟨rfl, rfl⟩, fun hnd3 _ =>
                  absurd (hnd3.symm.trans hdwo) (by decide)⟩
              · exact hr.2.2.1 j hj
            · intro j hj
              have hj2 : j ∉ rest := fun hc => hj
                (List.mem_cons_of_mem i hc)
              have hji : ¬ (i = j) := fun he => hj
                (by rw [← he]; exact List.mem_cons_self i rest)
              rw [hr.2.2.2 j hj2, getD_set_ne _ _ _ _ _ hji]
        · rename_i hdwo
          split at h
          · rename_i hisdw
            have hDstep : ∀ sec ∈ ep.f_shdr.set i
                { ep.f_shdr.getD i default with
                  gh_section_group_number :=
                    if (ep.f_shdr.getD i
                        default).gh_section_group_number = 0 then
                      DW_GROUPNUMBER_BASE
                    else (ep.f_shdr.getD i
                        default).gh_section_group_number
                  gh_is_dwarf := true },
                DwGrouped sec := by
              intro sec hs
              rcases List.mem_or_eq_of_mem_set hs with hs | hs
              · exact hD sec hs
              · subst hs
                intro h1
                show (if (ep.f_shdr.getD i
                    default).gh_section_group_number = 0 then
                      DW_GROUPNUMBER_BASE
                    else (ep.f_shdr.getD i
                      default).gh_section_group_number) ≠ 0
                split
                · decide
                · rename_i hne
                  exact hne
            have hAstep : ∀ j ∈ rest, GroupFree
                ((ep.f_shdr.set i
                  { ep.f_shdr.getD i default with
                    gh_section_group_number :=
                      if (ep.f_shdr.getD i
                          default).gh_section_group_number = 0 then
                        DW_GROUPNUMBER_BASE
                      else (ep.f_shdr.getD i
                          default).gh_section_group_number
                    gh_is_dwarf := true }).getD j default) := by
              intro j hj
              rw [getD_set_ne _ _ _ _ _
                (fun he => hnd2.1 (by rw [he]; exact hj))]
              exact hA j (List.mem_cons_of_mem i hj)
            have hr := ih _ _ h hnd2.2 hDstep hAstep
            refine ⟨hr.1, by rw [hr.2.1]; simp, ?_, ?_⟩
            · intro j hj
              rcases List.mem_cons.mp hj with hj | hj
              · subst hj
                have hcur := hr.2.2.2 j hnd2.1
                rw [getD_set_self _ _ _ _ hlt] at hcur
                rw [hcur]
                intro h1 h2
                refine ⟨fun hd => absurd hd hdwo,
                  fun _ _ => ⟨rfl, ?_⟩⟩
                show (if (ep.f_shdr.getD j
                    default).gh_section_group_number = 0 then
                      DW_GROUPNUMBER_BASE
                    else (ep.f_shdr.getD j
                      default).gh_section_group_number) =
                    DW_GROUPNUMBER_BASE ∨
                  3 ≤ (if (ep.f_shdr.getD j
                    default).gh_section_group_number = 0 then
                      DW_GROUPNUMBER_BASE
                    else (ep.f_shdr.getD j
                      default).gh_section_group_number)
                rcases hA j (List.mem_cons_self j rest) with hg | hg
                · rw [if_pos hg]
                  exact Or.inl rfl
                · rw [if_neg (by omega)]
                  exact Or.inr hg
              · exact hr.2.2.1 j hj
            · intro j hj
              have hj2 : j ∉ rest := fun hc => hj
                (List.mem_cons_of_mem i hc)
              have hji : ¬ (i = j) := fun he => hj
                (by rw [← he]; exact List.mem_cons_self i rest)
              rw [hr.2.2.2 j hj2, getD_set_ne _ _ _ _ _ hji]
          · rename_i hisdw
            have hr := ih _ _ h hnd2.2 hD
              (fun j hj => hA j (List.mem_cons_of_mem i hj))
            refine ⟨hr.1, hr.2.1, ?_, ?_⟩
            · intro j hj
              rcases List.mem_cons.mp hj with hj | hj
              · subst hj
                rw [hr.2.2.2 j hnd2.1]
                intro h1 h2
                refine ⟨fun hd => absurd hd hdwo,
                  fun _ hd => absurd hd hisdw⟩
              · exact hr.2.2.1 j hj
            · intro j hj
              exact hr.2.2.2 j (fun hc => hj (List.mem_cons_of_mem i hc))

theorem claim_C7_witness :
    _dwarf_load_elf_relx epW7 1 RelocRela.RelocIsRel = (.ok, epW7) ∧
    _dwarf_load_elf_relx epW7 3 RelocRela.RelocIsRel =
      (.error DW_DLE_ELF_SECTION_ERROR, epW7) :=
  ⟨(claim_C7_non_dwarf_target_skipped epW7 1 RelocRela.RelocIsRel
      (by decide) (by decide)).1 (by decide) (by decide),
    (claim_C7_non_dwarf_target_skipped epW7 3 RelocRela.RelocIsRel
      (by decide) (by decide)).2 (by decide)⟩

/-- Claim C2: section-group setup partitions the DWARF sections.  On a
freshly loaded state (no section marked as DWARF or grouped, next
COMDAT group number 3), a successful run of
_dwarf_elf_setup_all_section_groups leaves every DWARF-marked section
with a nonzero group number, and every section index below the section
count satisfies the assignment contract GroupAssigned: a data section
whose name ends in .dwo carries group DW_GROUPNUMBER_DWO, and any other
section classified as DWARF carries DW_GROUPNUMBER_BASE unless an
SHT_GROUP payload already gave it a COMDAT number (at least 3).
Assigning a section that already carries a group number a second time
fails with DW_DLE_ELF_SECTION_GROUP_ERROR, both in the pass-C .dwo
branch and in the SHT_GROUP payload loop. -/
theorem claim_C2_groups_partition (ign : String → Bool)
    (ep ep2 : ElfState)
    (hrun : _dwarf_elf_setup_all_section_groups ign ep = (.ok, ep2))
    (hnext : ep.f_sg_next_group_number = 3)
    (hinit : ∀ sec ∈ ep.f_shdr, sec.gh_is_dwarf = false ∧
      sec.gh_section_group_number = 0)
    (epd : ElfState) (k : Nat) (restd : List Nat)
    (hd1 : is_empty_section (epd.f_shdr.getD k default).gh_type = false)
    (hd2 : elf_sht_groupsec (epd.f_shdr.getD k default).gh_type
      (epd.f_shdr.getD k default).gh_namestring = false)
    (hd3 : string_endswith
      (epd.f_shdr.getD k default).gh_namestring ".dwo" = true)
    (hd4 : (epd.f_shdr.getD k default).gh_section_group_number ≠ 0)
    (data : List Nat) (epg : ElfState) (m : Nat) (restg accg : List Nat)
    (fg : Bool)
    (hg1 : gsNative epg.f_hostle data m ≠ 0)
    (hg2 : ¬(gsNative epg.f_hostle data m > epg.f_loc_shdr_count ∧
      gsSwapped epg.f_hostle data m > epg.f_loc_shdr_count))
    (hg3 : (epg.f_shdr.getD
        (gsSelect epg.f_hostle epg.f_loc_shdr_count data m)
        default).gh_section_group_number ≠ 0) :
    (∀ sec ∈ ep2.f_shdr, sec.gh_is_dwarf = true →
      sec.gh_section_group_number ≠ 0) ∧
    (∀ j, j < ep.f_loc_shdr_count →
      GroupAssigned ign (ep2.f_shdr.getD j default)) ∧
    setup_groups_passC ign epd (k :: restd) =
      (.error DW_DLE_ELF_SECTION_GROUP_ERROR, epd) ∧
    gs_group_loop data epg (m :: restg) accg fg =
      (.error DW_DLE_ELF_SECTION_GROUP_ERROR, epg, accg, fg) := by
  have hmain : (∀ sec ∈ ep2.f_shdr, DwGrouped sec) ∧
      (∀ j ∈ List.range ep.f_loc_shdr_count,
        GroupAssigned ign (ep2.f_shdr.getD j default)) := by
    simp only [_dwarf_elf_setup_all_section_groups] at hrun
    split at hrun
    · rename_i ep1 heq
      have hcl := setup_groups_passA_clean _ _ _ _ heq (by omega)
        (fun sec hs => ⟨(hinit sec hs).1, Or.inl (hinit sec hs).2⟩)
      have hpost := setup_groups_passC_post ign
        (List.range ep.f_loc_shdr_count) ep1 ep2 hrun
        (List.nodup_range _)
        (fun sec hs hdw => absurd ((hcl.1 sec hs).1.symm.trans hdw)
          (by decide))
        (fun j hj => (cleanSec_getD ep1.f_shdr j hcl.1).2)
      exact ⟨hpost.1, hpost.2.2.1⟩
    · rename_i rr hne
      exact absurd hrun (hne ep2)
  refine ⟨fun sec hs => hmain.1 sec hs,
    fun j hj => hmain.2 j (List.mem_range.mpr hj), ?_, ?_⟩
  · simp only [setup_groups_passC]
    rw [if_neg (by rw [hd1]; decide), if_neg (by rw [hd2]; decide),
      if_pos hd3, if_pos hd4]
  · simp only [gs_group_loop]
    simp only [gsSelect] at hg3
    rw [if_neg hg1, if_neg hg2, if_pos hg3]

/-- Witness for C2: on the five-section state epC2 the setup succeeds
and the theorem yields the partition facts; the two failure conjuncts
are exhibited on epC2d (a .dwo section already in group 3) and epC2g
(a payload entry naming an already-grouped section). -/
theorem claim_C2_witness :
    (∀ sec ∈ ((_dwarf_elf_setup_all_section_groups ignC2 epC2).2).f_shdr,
      sec.gh_is_dwarf = true → sec.gh_section_group_number ≠ 0) ∧
    (∀ j, j < epC2.f_loc_shdr_count →
      GroupAssigned ignC2
        (((_dwarf_elf_setup_all_section_groups ignC2 epC2).2).f_shdr.getD
          j default)) ∧
    setup_groups_passC ignC2 epC2d [0] =
      (.error DW_DLE_ELF_SECTION_GROUP_ERROR, epC2d) ∧
    gs_group_loop dataC2g epC2g [0] [] false =
      (.error DW_DLE_ELF_SECTION_GROUP_ERROR, epC2g, [], false) :=
  claim_C2_groups_partition ignC2 epC2
    (_dwarf_elf_setup_all_section_groups ignC2 epC2).2
    (by decide) rfl (by decide)
    epC2d 0 [] (by decide) (by decide) (by decide) (by decide)
    dataC2g epC2g 0 [] [] false (by decide) (by decide) (by decide)

/-- Claim C3 (corrected): for an SHT_GROUP section whose header passes
the size, entry-size and count checks and whose payload reads
successfully, the version word is accepted exactly when it is 1 in
either byte order (1 or 0x1000000): a bad version fails with
DW_DLE_ELF_SECTION_GROUP_ERROR and an unchanged state.  On success
every entry is nonzero with at least one in-range interpretation, and
the stored grouparray selects the native value unless it exceeds the
section count, in which case the byte-swapped value is used.  A failure
of the entry loop is always DW_DLE_ELF_SECTION_GROUP_ERROR, but it is
caused either by a bad version word, a zero entry, an entry out of
range in both byte orders, an entry whose target section already
carried a group number, or two entries selecting the same target — not
only by the zero and out-of-range cases the original claim lists. -/
theorem claim_C3_group_version_and_entries (ep : ElfState)
    (secnum : Nat) (data : List Nat) (r : DwRes) (ep2 : ElfState)
    (harr : (ep.f_shdr.getD secnum default).gh_sht_group_array = none)
    (hsz : 4 ≤ (ep.f_shdr.getD secnum default).gh_size)
    (hent : (ep.f_shdr.getD secnum default).gh_entsize = 4)
    (hcount : (ep.f_shdr.getD secnum default).gh_size / 4 ≤
      ep.f_loc_shdr_count)
    (hlt : secnum < ep.f_shdr.length)
    (hread : RRMOA ep.f_file (ep.f_shdr.getD secnum default).gh_offset
      (ep.f_shdr.getD secnum default).gh_size = .ok data)
    (hrun : read_gs_section_group ep secnum = (r, ep2)) :
    (asnar ep.f_hostle (data.take 4) ≠ 1 ∧
        asnar ep.f_hostle (data.take 4) ≠ 0x1000000 →
      r = .error DW_DLE_ELF_SECTION_GROUP_ERROR ∧ ep2 = ep) ∧
    (r = .ok →
      (asnar ep.f_hostle (data.take 4) = 1 ∨
        asnar ep.f_hostle (data.take 4) = 0x1000000) ∧
      (∀ j ∈ List.range' 1
          ((ep.f_shdr.getD secnum default).gh_size / 4 - 1),
        gsNative ep.f_hostle data j ≠ 0 ∧
        (gsNative ep.f_hostle data j ≤ ep.f_loc_shdr_count ∨
          gsSwapped ep.f_hostle data j ≤ ep.f_loc_shdr_count)) ∧
      (ep2.f_shdr.getD secnum default).gh_sht_group_array =
        some (1 :: (List.range' 1
            ((ep.f_shdr.getD secnum default).gh_size / 4 - 1)).map
          (gsSelect ep.f_hostle ep.f_loc_shdr_count data))) ∧
    (∀ c, r = .error c →
      c = DW_DLE_ELF_SECTION_GROUP_ERROR ∧
      ((asnar ep.f_hostle (data.take 4) ≠ 1 ∧
          asnar ep.f_hostle (data.take 4) ≠ 0x1000000) ∨
        ∃ j ∈ List.range' 1
            ((ep.f_shdr.getD secnum default).gh_size / 4 - 1),
          gsNative ep.f_hostle data j = 0 ∨
          (gsNative ep.f_hostle data j > ep.f_loc_shdr_count ∧
            gsSwapped ep.f_hostle data j > ep.f_loc_shdr_count) ∨
          (ep.f_shdr.getD
              (gsSelect ep.f_hostle ep.f_loc_shdr_count data j)
              default).gh_section_group_number ≠ 0 ∨
          ∃ j2 ∈ List.range' 1
              ((ep.f_shdr.getD secnum default).gh_size / 4 - 1),
            j2 ≠ j ∧ gsSelect ep.f_hostle ep.f_loc_shdr_count data j2 =
              gsSelect ep.f_hostle ep.f_loc_shdr_count data j)) := by
  have hns : ¬((ep.f_shdr.getD secnum
      default).gh_sht_group_array.isSome = true) := by
    rw [harr]
    decide
  unfold read_gs_section_group at hrun
  simp only [DWARF_32BIT_SIZE] at hrun
  rw [hent, if_neg hns, if_neg (by omega :
    ¬((ep.f_shdr.getD secnum default).gh_size < 4))] at hrun
  rw [if_neg (by decide : ¬((4 : Nat) ≠ 4)),
    if_neg (by decide : ¬((4 : Nat) = 0)),
    if_neg (by omega : ¬((ep.f_shdr.getD secnum default).gh_size / 4 >
      ep.f_loc_shdr_count))] at hrun
  split at hrun
  · rename_i c1 heq
    rw [hread] at heq
    simp at heq
  · rename_i data2 heq
    rw [hread] at heq
    cases heq
    split at hrun
    · rename_i hva
      cases hrun
      refine ⟨fun _ => ⟨rfl, rfl⟩, fun hc => absurd hc (by simp),
        fun c hc => ?_⟩
      injection hc with h3
      exact ⟨h3.symm, Or.inl hva⟩
    · rename_i hva
      split at hrun
      · rename_i ep3 arr f3 heq2
        have hok := gs_group_loop_ok_entries _ _ _ _ _ _ _ _ heq2
        have hsh := gs_group_loop_shape _ _ _ _ _ _ _ _ _ heq2
        cases f3
        · simp only [Bool.false_eq_true, if_false] at hrun
          cases hrun
          refine ⟨fun hc => absurd hc hva, fun _ => ?_,
            fun c hc => absurd hc (by simp)⟩
          refine ⟨?_, fun j hj => (hok.1 j hj), ?_⟩
          · by_cases h1 : asnar ep.f_hostle (data.take 4) = 1
            · exact Or.inl h1
            · by_cases h2 : asnar ep.f_hostle (data.take 4) = 0x1000000
              · exact Or.inr h2
              · exact absurd ⟨h1, h2⟩ hva
          · rw [getD_set_self _ _ _ _ (by rw [hsh.2.2.1]; exact hlt)]
            rw [hok.2]
            rfl
        · simp only [eq_self_iff_true, if_true] at hrun
          cases hrun
          refine ⟨fun hc => absurd hc hva, fun _ => ?_,
            fun c hc => absurd hc (by simp)⟩
          refine ⟨?_, fun j hj => (hok.1 j hj), ?_⟩
          · by_cases h1 : asnar ep.f_hostle (data.take 4) = 1
            · exact Or.inl h1
            · by_cases h2 : asnar ep.f_hostle (data.take 4) = 0x1000000
              · exact Or.inr h2
              · exact absurd ⟨h1, h2⟩ hva
          · rw [getD_set_self _ _ _ _ (by
              show secnum < ep3.f_shdr.length
              rw [hsh.2.2.1]
              exact hlt)]
            rw [hok.2]
            rfl
      · rename_i lr ep3 arr f3 hne heq2
        cases hrun
        refine ⟨fun hc => absurd hc hva, fun hc => ?_, fun c hc => ?_⟩
        · subst hc
          exact (hne rfl).elim
        · subst hc
          have herr := gs_group_loop_error_entries _ _ _ _ _ _ _ _ _
            (List.nodup_range' _ _ _ (by decide)) heq2
          exact ⟨herr.1, Or.inr herr.2⟩

/-- Counterexample for C3 as stated: in epC3 the version word is 1 and
both payload entries are nonzero and in range (both name section 2),
yet reading the group section fails with
DW_DLE_ELF_SECTION_GROUP_ERROR, because the second entry's target
already received a group number from the first.  The read therefore
does not fail "only when the entry is zero or both interpretations are
out of range". -/
theorem claim_C3_counterexample :
    asnar epC3.f_hostle (dataC3.take 4) = 1 ∧
    RRMOA epC3.f_file (epC3.f_shdr.getD 1 default).gh_offset
      (epC3.f_shdr.getD 1 default).gh_size = .ok dataC3 ∧
    (∀ j ∈ List.range' 1 2, gsNative epC3.f_hostle dataC3 j ≠ 0 ∧
      ¬(gsNative epC3.f_hostle dataC3 j > epC3.f_loc_shdr_count ∧
        gsSwapped epC3.f_hostle dataC3 j > epC3.f_loc_shdr_count)) ∧
    (read_gs_section_group epC3 1).1 =
      .error DW_DLE_ELF_SECTION_GROUP_ERROR :=
  ⟨by decide, rfl, by decide, by decide⟩

/-- Witness for C3: the corrected theorem applied to the clean state
epC3w, whose group payload names section 2 once; the read succeeds and
stores the grouparray [1, 2]. -/
theorem claim_C3_witness :
    (asnar epC3w.f_hostle (dataC3w.take 4) ≠ 1 ∧
        asnar epC3w.f_hostle (dataC3w.take 4) ≠ 0x1000000 →
      (read_gs_section_group epC3w 1).1 =
        .error DW_DLE_ELF_SECTION_GROUP_ERROR ∧
      (read_gs_section_group epC3w 1).2 = epC3w) ∧
    ((read_gs_section_group epC3w 1).1 = .ok →
      (asnar epC3w.f_hostle (dataC3w.take 4) = 1 ∨
        asnar epC3w.f_hostle (dataC3w.take 4) = 0x1000000) ∧
      (∀ j ∈ List.range' 1
          ((epC3w.f_shdr.getD 1 default).gh_size / 4 - 1),
        gsNative epC3w.f_hostle dataC3w j ≠ 0 ∧
        (gsNative epC3w.f_hostle dataC3w j ≤ epC3w.f_loc_shdr_count ∨
          gsSwapped epC3w.f_hostle dataC3w j ≤
            epC3w.f_loc_shdr_count)) ∧
      (((read_gs_section_group epC3w 1).2).f_shdr.getD 1
          default).gh_sht_group_array =
        some (1 :: (List.range' 1
            ((epC3w.f_shdr.getD 1 default).gh_size / 4 - 1)).map
          (gsSelect epC3w.f_hostle epC3w.f_loc_shdr_count dataC3w))) ∧
    (∀ c, (read_gs_section_group epC3w 1).1 = .error c →
      c = DW_DLE_ELF_SECTION_GROUP_ERROR ∧
      ((asnar epC3w.f_hostle (dataC3w.take 4) ≠ 1 ∧
          asnar epC3w.f_hostle (dataC3w.take 4) ≠ 0x1000000) ∨
        ∃ j ∈ List.range' 1
            ((epC3w.f_shdr.getD 1 default).gh_size / 4 - 1),
          gsNative epC3w.f_hostle dataC3w j = 0 ∨
          (gsNative epC3w.f_hostle dataC3w j > epC3w.f_loc_shdr_count ∧
            gsSwapped epC3w.f_hostle dataC3w j >
              epC3w.f_loc_shdr_count) ∨
          (epC3w.f_shdr.getD
              (gsSelect epC3w.f_hostle epC3w.f_loc_shdr_count dataC3w j)
              default).gh_section_group_number ≠ 0 ∨
          ∃ j2 ∈ List.range' 1
              ((epC3w.f_shdr.getD 1 default).gh_size / 4 - 1),
            j2 ≠ j ∧
            gsSelect epC3w.f_hostle epC3w.f_loc_shdr_count dataC3w j2 =
              gsSelect epC3w.f_hostle epC3w.f_loc_shdr_count
                dataC3w j)) :=
  claim_C3_group_version_and_entries epC3w 1 dataC3w
    (read_gs_section_group epC3w 1).1 (read_gs_section_group epC3w 1).2
    (by decide) (by decide) (by decide) (by decide) (by decide)
    rfl rfl

end ElfLoad
